import Mathlib

/-!
# Large action space reduction

A shallow embedding of `vowpalwabbit/core/src/reductions/cb/cb_explore_adf_large_action_space.cc`
and the properties of it that the specification states.

Modelling conventions.

* `float` values live in an arbitrary linearly ordered field `F`: the arithmetic is exact,
  rounding, infinities and NaN are not represented.  `std::sqrt` and `std::pow` are passed
  to the code as functions.  Where rounding decides a count (the number of non-degenerate
  singular values), the function is also given with the float operations as parameters
  (`float_ops`), of which the exact arithmetic is one instance.
* `uint32_t`, `uint64_t` and `size_t` values are natural numbers.  The values the code
  computes with them (a list length, a counter advanced once per call, a masked index
  plus one) stay far below `2^64`, so no wrap-around is represented.
* `std::vector`, `VW::v_array` and `Eigen::VectorXf` are lists.
* The randomized SVD implementation and the spanner state are template parameters of the
  class (`randomized_svd_impl`, `spanner_impl`); their code is not part of this file of the
  repository and they are taken as parameters (`externals`).
* `assert` has no effect on the state; an assertion is stated as a predicate of its own.
-/

set_option autoImplicit false
set_option linter.unusedSectionVars false
set_option linter.unusedVariables false

namespace VW
namespace cb_explore_adf

/-! ## Data model -/

/-- An entry of `VW::action_scores`: an action id (`uint32_t`) and its score (`float`). -/
structure action_score (F : Type) where
  action : Nat
  score : F

/-- The part of a `multi_ex` batch the orchestrator looks at: the prediction list
`examples[0]->pred.a_s`, and everything else (features, labels), which it only hands on. -/
structure multi_ex (F : Type) (E : Type) where
  a_s : List (action_score F)
  rest : E

/-- A dense matrix (`Eigen::MatrixXf`): its dimensions and its coefficients. -/
structure MatrixXf (F : Type) where
  rows : Nat
  cols : Nat
  coeff : Nat → Nat → F

/-- An `Eigen::Triplet<float>`: row, column, value. -/
structure Triplet (F : Type) where
  row : Nat
  col : Nat
  value : F

/-- A sparse matrix (`Eigen::SparseMatrix<float>`): its dimensions and the triplets it was
set from (`setFromTriplets` sums the values of triplets that share a position). -/
structure SparseMatrix (F : Type) where
  rows : Nat
  cols : Nat
  entries : List (Triplet F)

/-- The weight tables of the workspace as far as `_test_only_generate_A` reads them:
`weights.sparse` and the masks of the sparse and of the dense table. -/
structure parameters where
  sparse : Bool
  sparse_weights_mask : Nat
  dense_weights_mask : Nat

/-- Configuration of the shrink factor calculator (`shrink_factor_config`). -/
structure shrink_factor_config (F : Type) where
  _gamma_scale : F
  _gamma_exponent : F
  _apply_shrink_factor : Bool

/-- The collaborators of the orchestrator whose code lives outside this file: the randomized
SVD implementation (`impl.run`), the spanner state (`compute_spanner`,
`is_action_in_spanner`, `spanner_size`) and the two functions of `<cmath>` the shrink
factor uses. -/
structure externals (F : Type) where
  Ex : Type
  Impl : Type
  Spanner : Type
  run : Impl → multi_ex F Ex → List F → MatrixXf F → List F → MatrixXf F →
    Impl × MatrixXf F × List F × MatrixXf F
  compute_spanner : Spanner → MatrixXf F → Nat → List F → Spanner
  is_action_in_spanner : Spanner → Nat → Bool
  spanner_size : Spanner → Nat
  sqrt : F → F
  pow : Nat → F → F

/-- The data members of `cb_explore_adf_large_action_space` that the code of this file reads
or writes. -/
structure cb_explore_adf_large_action_space (F : Type) (X : externals F) where
  _d : Nat
  _counter : Nat
  _seed : Nat
  U : MatrixXf F
  S : List F
  _V : MatrixXf F
  shrink_factors : List F
  spanner_state : X.Spanner
  shrink_fact_config : shrink_factor_config F
  impl : X.Impl
  _non_degenerate_singular_values : Nat

/-! ## Feature matrix builder -/

/-- The members of `A_triplet_constructor`; the two references (`_triplets`, `_max_col`)
are fields whose final values the caller reads back. -/
structure A_triplet_constructor (F : Type) where
  _weights_mask : Nat
  _row_index : Nat
  _triplets : List (Triplet F)
  _max_col : Nat

section code

variable {F : Type} [LinearOrderedField F]

/-- Method `A_triplet_constructor::set` (lines 42-49). -/
def A_triplet_constructor.set (w : A_triplet_constructor F) (feature_value : F) (index : Nat) :
    A_triplet_constructor F :=
  if feature_value ≠ 0 then
    let w1 : A_triplet_constructor F :=
      { w with _triplets := w._triplets ++ [⟨w._row_index, index &&& w._weights_mask, feature_value⟩] }
    if (index &&& w._weights_mask) > w1._max_col then
      { w1 with _max_col := index &&& w._weights_mask }
    else w1
  else w

/-- Modelled from the spec: `VW::foreach_feature`, whose code is not in this file, "enumerate[s]
every nonzero feature activation produced by the interaction-expansion" of one example and
calls `set` on each; an example is represented by the activations `(value, index)` it
enumerates, in order. -/
def foreach_feature (activations : List (F × Nat)) (w : A_triplet_constructor F) :
    A_triplet_constructor F :=
  activations.foldl (fun acc a => acc.set a.1 a.2) w

/-- The state of the loop of `_test_only_generate_A`: `row_index`, `max_non_zero_col` and
`_triplets`. -/
structure generate_A_loop (F : Type) where
  row_index : Nat
  max_non_zero_col : Nat
  _triplets : List (Triplet F)

/-- One iteration of the loop of `_test_only_generate_A` (lines 64-97): both branches build
the constructor with the mask of the table in use and enumerate the features of the
example; then `row_index++`. -/
def generate_A_step (_all : parameters) (st : generate_A_loop F) (ex : List (F × Nat)) :
    generate_A_loop F :=
  let w : A_triplet_constructor F :=
    if _all.sparse then
      foreach_feature ex ⟨_all.sparse_weights_mask, st.row_index, st._triplets, st.max_non_zero_col⟩
    else
      foreach_feature ex ⟨_all.dense_weights_mask, st.row_index, st._triplets, st.max_non_zero_col⟩
  { row_index := st.row_index + 1, max_non_zero_col := w._max_col, _triplets := w._triplets }

/-- Function `_test_only_generate_A` (lines 58-113): returns the value of the function, `_triplets`
and `_A`. -/
def _test_only_generate_A (_all : parameters) (examples : List (List (F × Nat))) :
    Bool × List (Triplet F) × SparseMatrix F :=
  let st := examples.foldl (generate_A_step _all) ⟨0, 0, []⟩
  let _A : SparseMatrix F :=
    if st.max_non_zero_col = 0 then ⟨0, 0, []⟩
    else ⟨st.row_index, st.max_non_zero_col + 1, st._triplets⟩
  (decide (_A.cols ≠ 0) && decide (_A.rows ≠ 0), st._triplets, _A)

/-! ## Shrink factors -/

/-- Modelled from the spec: `operator<` of `action_score`, declared outside this file; the
spec takes `min_score` to be the "minimum score in the batch", so entries compare by
score. -/
def action_score.lt (a b : action_score F) : Bool := decide (a.score < b.score)

/-- Function `std::min_element` on the non-empty range `first :: rest`: the first smallest
element. -/
def min_element (first : action_score F) (rest : List (action_score F)) : action_score F :=
  rest.foldl (fun smallest x => if x.lt smallest then x else smallest) first

/-- Method `std::vector::resize(n, value)`: cut to `n` elements, or extend with copies of
`value`. -/
def vector_resize {α : Type} (v : List α) (n : Nat) (value : α) : List α :=
  v.take n ++ List.replicate (n - v.length) value

/-- Method `shrink_factor_config::calculate_shrink_factor` (lines 272-286); returns
`shrink_factors`.  On an empty `preds` the source dereferences `end()`; the loop then has no
iteration and the model returns the cleared vector. -/
def shrink_factor_config.calculate_shrink_factor (cfg : shrink_factor_config F)
    (sqrt : F → F) (pow : Nat → F → F) (counter max_actions : Nat)
    (preds : List (action_score F)) (shrink_factors : List F) : List F :=
  if cfg._apply_shrink_factor then
    match preds with
    | [] => []
    | first :: rest =>
      let min_ck := (min_element first rest).score
      let gamma := cfg._gamma_scale * pow counter cfg._gamma_exponent
      preds.map (fun p =>
        sqrt (((1 + max_actions : Nat) : F) + gamma / (4 * (max_actions : F)) * (p.score - min_ck)))
  else vector_resize shrink_factors preds.length 1

/-! ## Orchestrator -/

variable {X : externals F}

/-- Method `randomized_SVD` (lines 138-142): `impl.run(examples, shrink_factors, U, S, _V)`. -/
def cb_explore_adf_large_action_space.randomized_SVD
    (self : cb_explore_adf_large_action_space F X) (examples : multi_ex F X.Ex) :
    cb_explore_adf_large_action_space F X :=
  let r := X.run self.impl examples self.shrink_factors self.U self.S self._V
  { self with impl := r.1, U := r.2.1, S := r.2.2.1, _V := r.2.2.2 }

/-- The loop of `number_of_non_degenerate_singular_values` (lines 155-160) over the values
of `S` still to visit, with `_non_degenerate_singular_values` and `current_sum_sv`, in exact
arithmetic; `non_degenerate_loop_float` is the loop with the float operations as
parameters. -/
def non_degenerate_loop (threshold : F) : List F → Nat → F → Nat
  | [], count, _ => count
  | val :: rest, count, current_sum_sv =>
    if current_sum_sv + val > threshold then count + 1
    else non_degenerate_loop threshold rest (count + 1) (current_sum_sv + val)

/-- Method `number_of_non_degenerate_singular_values` (lines 144-164) as a function of `S`, in
exact arithmetic. -/
def non_degenerate_count (S : List F) : Nat :=
  if S.length > 0 then non_degenerate_loop (99 / 100 * S.sum) S 0 0 else 0

/-- The float arithmetic of `number_of_non_degenerate_singular_values` as the machine
performs it: the rounded addition of `current_sum_sv += val`, the rounded product and the
constant of `0.99f * sum_of_sv`, and the sum `S.sum()` as Eigen forms it.  Comparisons of
floats are exact and use the order of `F`. -/
structure float_ops (F : Type) where
  add : F → F → F
  mul : F → F → F
  c099 : F
  sum : List F → F

/-- The operations of exact arithmetic, with 99/100 for `0.99f`. -/
def exact_ops : float_ops F :=
  ⟨fun a b => a + b, fun a b => a * b, 99 / 100, List.sum⟩

/-- The loop of `number_of_non_degenerate_singular_values` (lines 155-160) with the float
operations `ops`: `current_sum_sv += val` is `ops.add`, and the comparison is with the
threshold as it was computed. -/
def non_degenerate_loop_float (ops : float_ops F) (threshold : F) : List F → Nat → F → Nat
  | [], count, _ => count
  | val :: rest, count, current_sum_sv =>
    if ops.add current_sum_sv val > threshold then count + 1
    else non_degenerate_loop_float ops threshold rest (count + 1) (ops.add current_sum_sv val)

/-- The threshold of line 159 as the code computes it: `0.99f * sum_of_sv`, with
`sum_of_sv = S.sum()`. -/
def computed_threshold (ops : float_ops F) (S : List F) : F :=
  ops.mul ops.c099 (ops.sum S)

/-- Method `number_of_non_degenerate_singular_values` (lines 144-164) as a function of `S`,
with the float operations `ops`; `non_degenerate_count` is its instance for exact
arithmetic. -/
def non_degenerate_count_float (ops : float_ops F) (S : List F) : Nat :=
  if S.length > 0 then non_degenerate_loop_float ops (computed_threshold ops S) S 0 0 else 0

/-- The value of `current_sum_sv` after the first `k` values of `S`: they are added one by
one, in order, to the initial 0. -/
def running_sum (ops : float_ops F) (S : List F) (k : Nat) : F :=
  (S.take k).foldl ops.add 0

/-- Method `number_of_non_degenerate_singular_values` (lines 144-164): the value returned and the
object with `_non_degenerate_singular_values` set. -/
def cb_explore_adf_large_action_space.number_of_non_degenerate_singular_values
    (self : cb_explore_adf_large_action_space F X) :
    Nat × cb_explore_adf_large_action_space F X :=
  (non_degenerate_count self.S,
    { self with _non_degenerate_singular_values := non_degenerate_count self.S })

/-- The loop of lines 202-207: `it` is the position of the iterator in `preds`;
`preds.erase(it)` removes the entry there and leaves the iterator on its successor. -/
def erase_loop (X : externals F) (sp : X.Spanner) (best_action : Nat)
    (preds : List (action_score F)) (it : Nat) : List (action_score F) :=
  if h : it < preds.length then
    if (!X.is_action_in_spanner sp preds[it].action && preds[it].action != best_action) then
      erase_loop X sp best_action (preds.eraseIdx it) it
    else erase_loop X sp best_action preds (it + 1)
  else preds
termination_by preds.length - it
decreasing_by
  · simp only [List.length_eraseIdx, h, if_true]; omega
  · omega

/-- The object after lines 174-175 of `update_example_prediction`: `calculate_shrink_factor`
has filled `shrink_factors` and `randomized_SVD` has run. -/
def cb_explore_adf_large_action_space.after_randomized_SVD
    (self : cb_explore_adf_large_action_space F X) (examples : multi_ex F X.Ex) :
    cb_explore_adf_large_action_space F X :=
  let factors := self.shrink_fact_config.calculate_shrink_factor X.sqrt X.pow self._counter
    self._d examples.a_s self.shrink_factors
  let self1 : cb_explore_adf_large_action_space F X := { self with shrink_factors := factors }
  self1.randomized_SVD examples

/-- The object after lines 186-187 of `update_example_prediction`, entered after
`randomized_SVD`: `non_degen` is computed and handed to `compute_spanner`. -/
def cb_explore_adf_large_action_space.after_compute_spanner
    (self2 : cb_explore_adf_large_action_space F X) :
    cb_explore_adf_large_action_space F X :=
  let r := self2.number_of_non_degenerate_singular_values
  let non_degen := min self2._d r.1
  let spanner := X.compute_spanner r.2.spanner_state r.2.U non_degen r.2.shrink_factors
  { r.2 with spanner_state := spanner }

/-- Method `update_example_prediction` (lines 166-208): the object and the batch after the call. -/
def cb_explore_adf_large_action_space.update_example_prediction
    (self : cb_explore_adf_large_action_space F X) (examples : multi_ex F X.Ex) :
    cb_explore_adf_large_action_space F X × multi_ex F X.Ex :=
  let preds := examples.a_s
  if h : self._d < preds.length then
    let self2 := self.after_randomized_SVD examples
    if self2.U.rows = 0 then
      let prob : F := 1 / (preds.length : F)
      (self2, { examples with a_s := preds.map (fun pred => { pred with score := prob }) })
    else
      let self3 := self2.after_compute_spanner
      have h0 : 0 < preds.length := Nat.lt_of_le_of_lt (Nat.zero_le _) h
      let best_action := preds[0].action
      (self3, { examples with a_s := erase_loop X self3.spanner_state best_action preds 0 })
  else (self, examples)

/-- The assertion of line 189, `spanner_state.spanner_size() == preds.size()`, on the
spanner state that `compute_spanner` left and the prediction list before the filter. -/
def spanner_size_assertion (X : externals F) (sp : X.Spanner) (preds : List (action_score F)) :
    Prop :=
  X.spanner_size sp = preds.length

/-- The constructor (lines 252-265): `_d`, `_counter(0)`, `_seed` and the configuration are
set from the arguments; the matrices and `shrink_factors` start empty.  The initial spanner
state (`spanner_state(c, d)`) and engine (`impl(...)`) come from collaborators. -/
def cb_explore_adf_large_action_space.construct (X : externals F) (d : Nat)
    (gamma_scale gamma_exponent : F) (apply_shrink_factor : Bool) (seed : Nat)
    (spanner_state : X.Spanner) (impl : X.Impl) : cb_explore_adf_large_action_space F X :=
  { _d := d, _counter := 0, _seed := seed,
    U := ⟨0, 0, fun _ _ => 0⟩, S := [], _V := ⟨0, 0, fun _ _ => 0⟩,
    shrink_factors := [], spanner_state := spanner_state,
    shrink_fact_config := ⟨gamma_scale, gamma_exponent, apply_shrink_factor⟩,
    impl := impl, _non_degenerate_singular_values := 0 }

/-- The entries that the loop of lines 202-207 leaves in place: spanner members and entries
carrying the action id `best_action`. -/
def retained (X : externals F) (sp : X.Spanner) (best_action : Nat) (e : action_score F) : Bool :=
  X.is_action_in_spanner sp e.action || e.action == best_action

/-! ## Learning and prediction -/

/-- The base learner (`VW::LEARNER::multi_learner`), whose code lives outside this file: its
state, what `learn` and `predict` do to the state and the batch, and the flag
`learn_returns_prediction`. -/
structure multi_learner (F : Type) (E : Type) where
  Base : Type
  learn : Base → multi_ex F E → Base × multi_ex F E
  predict : Base → multi_ex F E → Base × multi_ex F E
  learn_returns_prediction : Bool

/-- Method `predict_or_learn_impl<is_learn>` (lines 210-226): the object, the base learner
and the batch after the call. -/
def cb_explore_adf_large_action_space.predict_or_learn_impl (is_learn : Bool)
    (L : multi_learner F X.Ex) (self : cb_explore_adf_large_action_space F X) (base : L.Base)
    (examples : multi_ex F X.Ex) :
    cb_explore_adf_large_action_space F X × L.Base × multi_ex F X.Ex :=
  if is_learn then
    let b := L.learn base examples
    let r := if L.learn_returns_prediction then self.update_example_prediction b.2 else (self, b.2)
    ({ r.1 with _counter := r.1._counter + 1 }, b.1, r.2)
  else
    let b := L.predict base examples
    let r := self.update_example_prediction b.2
    (r.1, b.1, r.2)

/-- Method `learn` (lines 122-127). -/
def cb_explore_adf_large_action_space.learn (L : multi_learner F X.Ex)
    (self : cb_explore_adf_large_action_space F X) (base : L.Base) (examples : multi_ex F X.Ex) :
    cb_explore_adf_large_action_space F X × L.Base × multi_ex F X.Ex :=
  self.predict_or_learn_impl true L base examples

/-- Method `predict` (lines 115-120). -/
def cb_explore_adf_large_action_space.predict (L : multi_learner F X.Ex)
    (self : cb_explore_adf_large_action_space F X) (base : L.Base) (examples : multi_ex F X.Ex) :
    cb_explore_adf_large_action_space F X × L.Base × multi_ex F X.Ex :=
  self.predict_or_learn_impl false L base examples

/-- A sequence of calls of `learn` (flag true) and `predict` (flag false), each with its
batch, made one after the other on the object and the base learner. -/
def run_calls (L : multi_learner F X.Ex) (start : cb_explore_adf_large_action_space F X × L.Base)
    (calls : List (Bool × multi_ex F X.Ex)) : cb_explore_adf_large_action_space F X × L.Base :=
  calls.foldl (fun st call =>
    let r := st.1.predict_or_learn_impl call.1 L st.2 call.2
    (r.1, r.2.1)) start

/-! ## Persistence -/

/-- Modelled from the spec: a field of the model file, which the spec describes as "a single
named field": its name, its value, and the flag `text` it was written with. -/
structure model_field where
  name : String
  value : Nat
  text : Bool

/-- Modelled from the spec: the model buffer `io_buf`, whose code is not in this file: the
number of files attached to it and the fields it holds, in the order they were written. -/
structure io_buf where
  num_files : Nat
  fields : List model_field

/-- Modelled from the spec: `model_utils::read_model_field`, whose code is not in this file.
The counter "round-trips through model save/restore as a single named field": reading takes
the next field of the buffer and returns its value; a buffer with no field left leaves the
variable as it is. -/
def read_model_field (io : io_buf) (var : Nat) : io_buf × Nat :=
  match io.fields with
  | [] => (io, var)
  | f :: rest => ({ io with fields := rest }, f.value)

/-- Modelled from the spec: `model_utils::write_model_field`, whose code is not in this file:
writing puts the named field after the fields already written. -/
def write_model_field (io : io_buf) (var : Nat) (name : String) (text : Bool) : io_buf :=
  { io with fields := io.fields ++ [⟨name, var, text⟩] }

/-- The name under which `save_load` writes the counter (line 135). -/
def counter_field_name : String := "cb large action space storing example counter"

/-- Method `save_load` (lines 129-136): the object and the buffer after the call. -/
def cb_explore_adf_large_action_space.save_load (self : cb_explore_adf_large_action_space F X)
    (io : io_buf) (read : Bool) (text : Bool) :
    cb_explore_adf_large_action_space F X × io_buf :=
  if io.num_files = 0 then (self, io)
  else if read then
    let r := read_model_field io self._counter
    ({ self with _counter := r.2 }, r.1)
  else (self, write_model_field io self._counter counter_field_name text)

/-! ## Random projection -/

/-- The statement `Z(row, col) += value` on a dense matrix. -/
def MatrixXf.add_at (Z : MatrixXf F) (row col : Nat) (value : F) : MatrixXf F :=
  { Z with coeff := fun i j => if i = row ∧ j = col then Z.coeff i j + value else Z.coeff i j }

/-- The innermost loop of `generate_Z` (lines 241-246) for one `row` and `col`;
`combined_index` is a sum of `uint64_t` values and wraps at `2^64`.  The projection source
`merand48_boxmuller`, whose code is not in this file, is the function `g` of the index. -/
def generate_Z_inner (B : MatrixXf F) (g : Nat → F) (d seed row col : Nat) (Z : MatrixXf F) :
    MatrixXf F :=
  (List.range d).foldl (fun Z inner_index =>
    let combined_index := ((inner_index + col) % 2 ^ 64 + seed) % 2 ^ 64
    let dot_prod_prod := B.coeff row inner_index * g combined_index
    Z.add_at row col dot_prod_prod) Z

/-- Lines 233-248 of `generate_Z`: `Z` is resized to `num_actions x d` and set to zero, then
filled row by row of `B`.  An access outside the dimensions of a matrix is undefined in the
source; here it reads or writes the coefficient function at that position. -/
def generate_Z_before_gram_schmidt {E : Type} (examples : multi_ex F E) (B : MatrixXf F)
    (g : Nat → F) (d seed : Nat) : MatrixXf F :=
  let num_actions := examples.a_s.length
  let Z0 : MatrixXf F := ⟨num_actions, d, fun _ _ => 0⟩
  (List.range B.rows).foldl (fun Z row =>
    (List.range d).foldl (fun Z col => generate_Z_inner B g d seed row col Z) Z) Z0

/-- Function `generate_Z` (lines 228-250): the matrix `Z` after the call; `VW::gram_schmidt`,
whose code is not in this file, is a parameter. -/
def generate_Z {E : Type} (gram_schmidt : MatrixXf F → MatrixXf F) (examples : multi_ex F E)
    (B : MatrixXf F) (g : Nat → F) (d seed : Nat) : MatrixXf F :=
  gram_schmidt (generate_Z_before_gram_schmidt examples B g d seed)

/-! ## Setup -/

/-- The initial value of `thread_pool_size` (line 340),
`(std::thread::hardware_concurrency() - 1) / 2`, computed in `unsigned int` arithmetic (32
bits) from the value `hardware_concurrency` that the platform reports. -/
def default_thread_pool_size (hardware_concurrency : Nat) : Nat :=
  ((hardware_concurrency + 2 ^ 32 - 1) % 2 ^ 32) / 2

/-- Modelled from the spec: the option `thread_pool_size` (lines 367-370), parsed by code that
is not in this file; it has no `default_value`, so the variable keeps its initial value
unless the option is supplied.  This is the pool size handed to the engine. -/
def thread_pool_size (supplied : Option Nat) (hardware_concurrency : Nat) : Nat :=
  match supplied with
  | some n => n
  | none => default_thread_pool_size hardware_concurrency

/-! ## The notions of the specification -/

/-- The single best-scored entry of a prediction list in the words of the specification: no
other entry has a better score, and among entries with the best score it is the one met
first in the original order.  `better x y` says that score `x` is better than score `y`. -/
def spec_best_action (better : F → F → Bool) : List (action_score F) → Option (action_score F)
  | [] => none
  | first :: rest =>
    some (rest.foldl (fun best x => if better x.score best.score then x else best) first)

/-- The filtered prediction list in the words of the specification: the input without every
entry that is neither a spanner member nor the single best-scored action. -/
def spec_filtered (X : externals F) (sp : X.Spanner) (better : F → F → Bool)
    (preds : List (action_score F)) : List (action_score F) :=
  match spec_best_action better preds with
  | none => preds
  | some best =>
    preds.filter (fun p => X.is_action_in_spanner sp p.action || p.action == best.action)

/-- The projection matrix `P` in the words of the specification: `d x d`, with
`P(inner_index, col) = g((inner_index + col + seed) mod 2^64)`, a function of the indices
and the seed only. -/
def spec_P (g : Nat → F) (d seed : Nat) : MatrixXf F :=
  ⟨d, d, fun inner_index col => g ((inner_index + col + seed) % 2 ^ 64)⟩

/-- The entry `(row, col)` of the product `B * P`: the sum over `inner_index` from 0 to
`d - 1` of `B(row, inner_index) * P(inner_index, col)`. -/
def spec_Z_entry (B : MatrixXf F) (g : Nat → F) (d seed row col : Nat) : F :=
  Finset.sum (Finset.range d)
    (fun inner_index => B.coeff row inner_index * (spec_P g d seed).coeff inner_index col)

/-- Cumulative sum of the first `k` singular values. -/
def leading_sum (S : List F) (k : Nat) : F := (S.take k).sum

/-- The first `k` singular values carry more than 99% of the total. -/
def exceeds_threshold (S : List F) (k : Nat) : Prop := leading_sum S k > 99 / 100 * S.sum

end code

/-! ## Worked instances

Collaborators over the rationals, used to evaluate the code on explicit inputs. -/

/-- A set of collaborators with a fixed answer: the engine returns an embedding with `u_rows`
rows and the singular values `s`; the spanner state is a membership bit per row of `U`, with
the first `rank` of the actions listed in `members` selected, and `spanner_size` is the
number of bits, as the assertion of line 189 expects.  `sqrt` is exact on squares of
rationals and `pow` on non-negative integer exponents. -/
def sample_externals (u_rows : Nat) (s : List ℚ) (members : List Nat) : externals ℚ where
  Ex := Unit
  Impl := Unit
  Spanner := List Bool
  run := fun impl _ _ _ _ V => (impl, ⟨u_rows, s.length, fun _ _ => 0⟩, s, V)
  compute_spanner := fun _ U rank _ =>
    (List.range U.rows).map (fun a => decide (a ∈ members.take rank))
  is_action_in_spanner := fun sp a => sp.getD a false
  spanner_size := fun sp => sp.length
  sqrt := fun x => (Nat.sqrt (x.num.toNat * x.den) : ℚ) / x.den
  pow := fun n e => (n : ℚ) ^ e.floor.toNat

/-- A freshly constructed orchestrator with target rank `d` over `sample_externals`, shrink
factors disabled (`gamma_scale = 1`, `gamma_exponent = 0`, the defaults of the setup). -/
def sample_las (d u_rows : Nat) (s : List ℚ) (members : List Nat) :
    cb_explore_adf_large_action_space ℚ (sample_externals u_rows s members) :=
  cb_explore_adf_large_action_space.construct (sample_externals u_rows s members) d 1 0 false 0
    [] ()

/-- A batch of four predictions whose first entry has neither the lowest nor the highest
score. -/
def unsorted_batch : multi_ex ℚ Unit :=
  ⟨[⟨0, 5⟩, ⟨1, 1⟩, ⟨2, 9⟩, ⟨3, 5⟩], ()⟩

/-- A batch of three predictions in increasing order of score. -/
def sorted_batch : multi_ex ℚ Unit :=
  ⟨[⟨2, 1⟩, ⟨0, 3⟩, ⟨1, 4⟩], ()⟩

/-- The orchestrator `sample_las 1 4 [1] [3]` after `v` learning calls, as far as its counter
goes. -/
def sample_las_with_counter (v : Nat) :
    cb_explore_adf_large_action_space ℚ (sample_externals 4 [1] [3]) :=
  { sample_las 1 4 [1] [3] with _counter := v }

/-- A matrix `B` of two rows and three columns for worked examples, with
`B(i, j) = i + 2 * j`. -/
def sample_B : MatrixXf ℚ :=
  ⟨2, 3, fun i j => (i : ℚ) + 2 * (j : ℚ)⟩

/-- Float operations for worked examples on integer values between `2^23` and `2^24`, where
the binary32 numbers are the integers: the sum of such values is exact, a product is
rounded to the nearest integer, and `0.99f` is the binary32 number `16609444 / 2^24`. -/
def sample_float_ops : float_ops ℚ :=
  ⟨fun a b => a + b, fun a b => ((round (a * b) : ℤ) : ℚ), 16609444 / 16777216, List.sum⟩

/-- A base learner for worked examples: its state counts the calls of `learn`, and it hands
the batch back as it received it. -/
def sample_learner (learn_returns_prediction : Bool) : multi_learner ℚ Unit where
  Base := Nat
  learn := fun calls examples => (calls + 1, examples)
  predict := fun calls examples => (calls, examples)
  learn_returns_prediction := learn_returns_prediction


/-! ## Properties of the filtering loop -/

section properties

variable {F : Type} [LinearOrderedField F] {X : externals F}

theorem erase_loop_eq (X : externals F) (sp : X.Spanner) (best : Nat) :
    ∀ (n : Nat) (preds : List (action_score F)) (it : Nat), preds.length - it = n →
      erase_loop X sp best preds it =
        preds.take it ++ (preds.drop it).filter (retained X sp best) := by
  intro n
  induction n using Nat.strong_induction_on with
  | _ n ih =>
    intro preds it hn
    rw [erase_loop]
    split
    · next h =>
      have hdrop : preds.drop it = preds[it] :: preds.drop (it + 1) :=
        List.drop_eq_getElem_cons h
      split
      · next hc =>
        have hlen : (preds.eraseIdx it).length - it = n - 1 := by
          simp only [List.length_eraseIdx, h, if_true]; omega
        rw [ih (n - 1) (by omega) _ _ hlen, hdrop]
        have hk : retained X sp best preds[it] = false := by
          unfold retained
          revert hc
          cases X.is_action_in_spanner sp preds[it].action <;>
            cases hb : (preds[it].action == best) <;> simp [bne, hb]
        have h1 : (preds.take it).length = it := by simp; omega
        rw [List.eraseIdx_eq_take_drop_succ, List.take_left' h1, List.drop_left' h1]
        simp only [List.filter_cons, hk]
        simp
      · next hc =>
        rw [ih (n - 1) (by omega) _ _ (by omega), hdrop]
        have hk : retained X sp best preds[it] = true := by
          unfold retained
          revert hc
          cases X.is_action_in_spanner sp preds[it].action <;>
            cases hb : (preds[it].action == best) <;> simp [bne, hb]
        simp only [List.filter_cons, hk, if_true]
        rw [List.take_succ, List.getElem?_eq_getElem h]
        simp only [Option.toList, List.append_assoc, List.singleton_append]
    · next h =>
      have h1 : preds.length ≤ it := by omega
      simp [List.take_of_length_le h1, List.drop_eq_nil_of_le h1]

theorem erase_loop_zero (X : externals F) (sp : X.Spanner) (best : Nat)
    (preds : List (action_score F)) :
    erase_loop X sp best preds 0 = preds.filter (retained X sp best) := by
  rw [erase_loop_eq X sp best _ preds 0 rfl]; simp

/-! ## The three outcomes of `update_example_prediction` -/

theorem update_bypass (self : cb_explore_adf_large_action_space F X) (examples : multi_ex F X.Ex)
    (h : examples.a_s.length ≤ self._d) :
    self.update_example_prediction examples = (self, examples) := by
  unfold cb_explore_adf_large_action_space.update_example_prediction
  simp only [Nat.not_lt.mpr h, dite_false]

theorem update_cold_start (self : cb_explore_adf_large_action_space F X)
    (examples : multi_ex F X.Ex) (hd : self._d < examples.a_s.length)
    (hU : (self.after_randomized_SVD examples).U.rows = 0) :
    self.update_example_prediction examples =
      (self.after_randomized_SVD examples,
        ⟨examples.a_s.map (fun pred => ⟨pred.action, 1 / (examples.a_s.length : F)⟩),
          examples.rest⟩) := by
  unfold cb_explore_adf_large_action_space.update_example_prediction
  simp only [hd, dite_true, hU, if_true]

theorem update_filtered (self : cb_explore_adf_large_action_space F X) (e : X.Ex)
    (first : action_score F) (rest : List (action_score F))
    (hd : self._d < (first :: rest).length)
    (hU : (self.after_randomized_SVD ⟨first :: rest, e⟩).U.rows ≠ 0) :
    self.update_example_prediction ⟨first :: rest, e⟩ =
      ((self.after_randomized_SVD ⟨first :: rest, e⟩).after_compute_spanner,
        ⟨(first :: rest).filter (retained X
          (self.after_randomized_SVD ⟨first :: rest, e⟩).after_compute_spanner.spanner_state
          first.action), e⟩) := by
  unfold cb_explore_adf_large_action_space.update_example_prediction
  simp only [hd, dite_true, hU, if_false, erase_loop_zero, List.getElem_cons_zero]

end properties

section orchestrator_claims

variable {F : Type} [LinearOrderedField F] {X : externals F}

theorem retained_first (X : externals F) (sp : X.Spanner) (first : action_score F) :
    retained X sp first.action first = true := by
  simp [retained]

theorem spec_best_action_first (better : F → F → Bool) (first : action_score F) :
    ∀ rest : List (action_score F), (∀ x ∈ rest, better x.score first.score = false) →
      spec_best_action better (first :: rest) = some first := by
  intro rest
  unfold spec_best_action
  induction rest with
  | nil => intro _; rfl
  | cons x xs ih =>
    intro h
    have hx : better x.score first.score = false := h x (List.mem_cons_self _ _)
    simp only [List.foldl_cons, hx]
    exact ih (fun y hy => h y (List.mem_cons_of_mem _ hy))

/-- C1, as stated, fails: with target rank 1 and the spanner selecting action 3, the batch
with scores 5, 1, 9, 5 for the actions 0, 1, 2, 3 comes out as the actions 0 and 3.  The
input without the entries that are neither a spanner member nor the best-scored action is
the actions 1 and 3 if a lower score is better and the actions 2 and 3 if a higher one
is. -/
theorem filtered_list_counterexample :
    (sample_las 1 4 [1] [3])._d < unsorted_batch.a_s.length
      ∧ ((sample_las 1 4 [1] [3]).after_randomized_SVD unsorted_batch).U.rows ≠ 0
      ∧ ((sample_las 1 4 [1] [3]).update_example_prediction unsorted_batch).2.a_s.map
          action_score.action = [0, 3]
      ∧ (spec_filtered (sample_externals 4 [1] [3])
          ((sample_las 1 4 [1] [3]).update_example_prediction unsorted_batch).1.spanner_state
          (fun x y => decide (x < y)) unsorted_batch.a_s).map action_score.action = [1, 3]
      ∧ (spec_filtered (sample_externals 4 [1] [3])
          ((sample_las 1 4 [1] [3]).update_example_prediction unsorted_batch).1.spanner_state
          (fun x y => decide (y < x)) unsorted_batch.a_s).map action_score.action = [2, 3] := by
  have hlow : spec_best_action (fun x y => decide (x < y)) unsorted_batch.a_s
      = some (⟨1, 1⟩ : action_score ℚ) := by
    norm_num [spec_best_action, unsorted_batch]
  have hhigh : spec_best_action (fun x y => decide (y < x)) unsorted_batch.a_s
      = some (⟨2, 9⟩ : action_score ℚ) := by
    norm_num [spec_best_action, unsorted_batch]
  unfold spec_filtered
  rw [hlow, hhigh]
  unfold unsorted_batch
  rw [update_filtered _ _ _ _ (by decide) (by decide)]
  refine ⟨by decide, by decide, ?_, ?_, ?_⟩ <;>
    simp [retained, cb_explore_adf_large_action_space.after_compute_spanner,
      cb_explore_adf_large_action_space.number_of_non_degenerate_singular_values,
      cb_explore_adf_large_action_space.after_randomized_SVD,
      cb_explore_adf_large_action_space.randomized_SVD, sample_las, sample_externals,
      cb_explore_adf_large_action_space.construct, non_degenerate_count, non_degenerate_loop,
      List.range, List.range.loop, List.filter_cons]

/-- C1, amended. In the filtered state (more than `d` predictions, an embedding `U` with at
least one row) the prediction list after `update_example_prediction` is the input list
without the entries that are neither a spanner member (`is_action_in_spanner` of the action
id, asked of the spanner state the call leaves) nor an entry carrying the action id of the
first entry of the input, which the code takes as the best action
(`best_action = preds[0].action`); the entries kept are entries of the input, unchanged and
in their original order. -/
theorem update_example_prediction_filtered_list (self : cb_explore_adf_large_action_space F X)
    (e : X.Ex) (first : action_score F) (rest : List (action_score F))
    (hd : self._d < (first :: rest).length)
    (hU : (self.after_randomized_SVD ⟨first :: rest, e⟩).U.rows ≠ 0) :
    (self.update_example_prediction ⟨first :: rest, e⟩).2.a_s =
        (first :: rest).filter (fun p =>
          X.is_action_in_spanner
            (self.update_example_prediction ⟨first :: rest, e⟩).1.spanner_state p.action
          || p.action == first.action)
      ∧ (self.update_example_prediction ⟨first :: rest, e⟩).2.a_s.Sublist (first :: rest) := by
  rw [update_filtered self e first rest hd hU]
  exact ⟨rfl, List.filter_sublist _⟩

theorem update_example_prediction_filtered_list_witness :
    (sample_las 1 4 [1] [3])._d < ([⟨0, 5⟩, ⟨1, 1⟩, ⟨2, 9⟩, ⟨3, 5⟩] : List (action_score ℚ)).length
      ∧ ((sample_las 1 4 [1] [3]).after_randomized_SVD
          ⟨[⟨0, 5⟩, ⟨1, 1⟩, ⟨2, 9⟩, ⟨3, 5⟩], ()⟩).U.rows ≠ 0
      ∧ ((sample_las 1 4 [1] [3]).update_example_prediction
          ⟨[⟨0, 5⟩, ⟨1, 1⟩, ⟨2, 9⟩, ⟨3, 5⟩], ()⟩).2.a_s.Sublist
          [⟨0, 5⟩, ⟨1, 1⟩, ⟨2, 9⟩, ⟨3, 5⟩] :=
  ⟨by decide, by decide,
    (update_example_prediction_filtered_list (sample_las 1 4 [1] [3]) () ⟨0, 5⟩
      [⟨1, 1⟩, ⟨2, 9⟩, ⟨3, 5⟩] (by decide) (by decide)).2⟩

/-- C2, as stated, fails: with target rank 1 and the spanner selecting action 3, the batch
with scores 5, 1, 9, 5 for the actions 0, 1, 2, 3 comes out as the actions 0 and 3.  The
best-scored action (action 1 if a lower score is better, action 2 if a higher one is) is
not in the output. -/
theorem best_scored_action_counterexample :
    (sample_las 1 4 [1] [3])._d < unsorted_batch.a_s.length
      ∧ ((sample_las 1 4 [1] [3]).after_randomized_SVD unsorted_batch).U.rows ≠ 0
      ∧ (spec_best_action (fun x y => decide (x < y)) unsorted_batch.a_s).map action_score.action
          = some 1
      ∧ (spec_best_action (fun x y => decide (y < x)) unsorted_batch.a_s).map action_score.action
          = some 2
      ∧ ((sample_las 1 4 [1] [3]).update_example_prediction unsorted_batch).2.a_s.map
          action_score.action = [0, 3]
      ∧ 1 ∉ ((sample_las 1 4 [1] [3]).update_example_prediction unsorted_batch).2.a_s.map
          action_score.action
      ∧ 2 ∉ ((sample_las 1 4 [1] [3]).update_example_prediction unsorted_batch).2.a_s.map
          action_score.action := by
  have hout : ((sample_las 1 4 [1] [3]).update_example_prediction unsorted_batch).2.a_s.map
      action_score.action = [0, 3] := by
    unfold unsorted_batch
    rw [update_filtered _ _ _ _ (by decide) (by decide)]
    simp [retained, cb_explore_adf_large_action_space.after_compute_spanner,
      cb_explore_adf_large_action_space.number_of_non_degenerate_singular_values,
      cb_explore_adf_large_action_space.after_randomized_SVD,
      cb_explore_adf_large_action_space.randomized_SVD, sample_las, sample_externals,
      cb_explore_adf_large_action_space.construct, non_degenerate_count, non_degenerate_loop,
      List.range, List.range.loop, List.filter_cons]
  refine ⟨by decide, by decide, ?_, ?_, hout, ?_, ?_⟩
  · norm_num [spec_best_action, unsorted_batch]
  · norm_num [spec_best_action, unsorted_batch]
  · rw [hout]; decide
  · rw [hout]; decide

/-- C2, amended. In the filtered state the first entry of the input list, which the code takes
as the best action, is in the output, as its first entry, whether or not the spanner
selected it; it is the single best-scored action whenever no later entry has a better
score than it. -/
theorem first_entry_retained (better : F → F → Bool)
    (self : cb_explore_adf_large_action_space F X)
    (e : X.Ex) (first : action_score F) (rest : List (action_score F))
    (hd : self._d < (first :: rest).length)
    (hU : (self.after_randomized_SVD ⟨first :: rest, e⟩).U.rows ≠ 0) :
    (self.update_example_prediction ⟨first :: rest, e⟩).2.a_s.head? = some first
      ∧ first ∈ (self.update_example_prediction ⟨first :: rest, e⟩).2.a_s
      ∧ ((∀ x ∈ rest, better x.score first.score = false) →
          spec_best_action better (first :: rest) = some first) := by
  rw [update_filtered self e first rest hd hU]
  refine ⟨?_, ?_, spec_best_action_first better first rest⟩
  · simp [List.filter_cons, retained_first]
  · simp [List.filter_cons, retained_first]

theorem first_entry_retained_witness :
    (sample_las 1 3 [1] [1])._d < ([⟨2, 1⟩, ⟨0, 3⟩, ⟨1, 4⟩] : List (action_score ℚ)).length
      ∧ ((sample_las 1 3 [1] [1]).after_randomized_SVD ⟨[⟨2, 1⟩, ⟨0, 3⟩, ⟨1, 4⟩], ()⟩).U.rows ≠ 0
      ∧ (⟨2, 1⟩ : action_score ℚ) ∈ ((sample_las 1 3 [1] [1]).update_example_prediction
          ⟨[⟨2, 1⟩, ⟨0, 3⟩, ⟨1, 4⟩], ()⟩).2.a_s :=
  ⟨by decide, by decide,
    (first_entry_retained (fun x y => decide (x < y)) (sample_las 1 3 [1] [1]) () ⟨2, 1⟩
      [⟨0, 3⟩, ⟨1, 4⟩] (by decide) (by decide)).2.1⟩

/-- C3. Bypass: when the prediction list has at most `d` entries, `update_example_prediction`
returns the batch and the object as they were: the prediction list keeps its content and
order, and the shrink factors, `U`, `S` and the spanner state are not touched. -/
theorem update_example_prediction_bypass (self : cb_explore_adf_large_action_space F X)
    (examples : multi_ex F X.Ex) (h : examples.a_s.length ≤ self._d) :
    (self.update_example_prediction examples).2.a_s = examples.a_s
      ∧ self.update_example_prediction examples = (self, examples) := by
  rw [update_bypass self examples h]
  exact ⟨rfl, rfl⟩

theorem update_example_prediction_bypass_witness :
    sorted_batch.a_s.length ≤ (sample_las 3 3 [1] [1])._d
      ∧ (sample_las 3 3 [1] [1]).update_example_prediction sorted_batch
          = (sample_las 3 3 [1] [1], sorted_batch) :=
  ⟨by decide,
    (update_example_prediction_bypass (sample_las 3 3 [1] [1]) sorted_batch (by decide)).2⟩

/-- C4. Cold start: when the prediction list has `n > d` entries and the engine returns an
embedding with zero rows, every score after `update_example_prediction` is `1 / n`, the list
has the same length and the same action ids in the same order, and the spanner state is the
one from before the call. -/
theorem update_example_prediction_cold_start (self : cb_explore_adf_large_action_space F X)
    (examples : multi_ex F X.Ex) (hd : self._d < examples.a_s.length)
    (hU : (self.after_randomized_SVD examples).U.rows = 0) :
    (∀ p ∈ (self.update_example_prediction examples).2.a_s,
        p.score = 1 / (examples.a_s.length : F))
      ∧ (self.update_example_prediction examples).2.a_s.length = examples.a_s.length
      ∧ (self.update_example_prediction examples).2.a_s.map action_score.action
          = examples.a_s.map action_score.action
      ∧ (self.update_example_prediction examples).1.spanner_state = self.spanner_state := by
  rw [update_cold_start self examples hd hU]
  refine ⟨?_, ?_, ?_, rfl⟩
  · intro p hp
    simp only [List.mem_map] at hp
    obtain ⟨q, _, rfl⟩ := hp
    rfl
  · simp
  · simp [Function.comp_def]

theorem update_example_prediction_cold_start_witness :
    (sample_las 1 0 [] [])._d < unsorted_batch.a_s.length
      ∧ ((sample_las 1 0 [] []).after_randomized_SVD unsorted_batch).U.rows = 0
      ∧ ((sample_las 1 0 [] []).update_example_prediction unsorted_batch).2.a_s.length
          = unsorted_batch.a_s.length :=
  ⟨by decide, by decide,
    (update_example_prediction_cold_start (sample_las 1 0 [] []) unsorted_batch (by decide)
      (by decide)).2.1⟩

theorem filter_retained_length (X : externals F) (sp : X.Spanner) (first : action_score F)
    (rest : List (action_score F)) (hnodup : ((first :: rest).map action_score.action).Nodup) :
    ((first :: rest).filter (retained X sp first.action)).length =
      ((first :: rest).filter (fun p => X.is_action_in_spanner sp p.action)).length
        + (if X.is_action_in_spanner sp first.action then 0 else 1) := by
  have hrest : rest.filter (retained X sp first.action)
      = rest.filter (fun p => X.is_action_in_spanner sp p.action) := by
    apply List.filter_congr
    intro x hx
    have hne : x.action ≠ first.action := by
      intro heq
      have h1 := (List.nodup_cons.mp hnodup).1
      exact h1 (heq ▸ List.mem_map_of_mem action_score.action hx)
    simp [retained, hne]
  simp only [List.filter_cons, retained_first, if_true, hrest, List.length_cons]
  cases X.is_action_in_spanner sp first.action <;> simp

/-- C5, as stated, fails: with target rank 1, an embedding of three rows and the spanner
selecting the best action 2, the three predictions come out as one, while `spanner_size()`
is 3, the number of predictions before the filter, as line 189 asserts. -/
theorem output_count_counterexample :
    (sample_las 1 3 [1] [2])._d < sorted_batch.a_s.length
      ∧ ((sample_las 1 3 [1] [2]).after_randomized_SVD sorted_batch).U.rows ≠ 0
      ∧ spanner_size_assertion (sample_externals 3 [1] [2])
          ((sample_las 1 3 [1] [2]).update_example_prediction sorted_batch).1.spanner_state
          sorted_batch.a_s
      ∧ (sample_externals 3 [1] [2]).is_action_in_spanner
          ((sample_las 1 3 [1] [2]).update_example_prediction sorted_batch).1.spanner_state 2 = true
      ∧ (sample_externals 3 [1] [2]).spanner_size
          ((sample_las 1 3 [1] [2]).update_example_prediction sorted_batch).1.spanner_state = 3
      ∧ ((sample_las 1 3 [1] [2]).update_example_prediction sorted_batch).2.a_s.length = 1
      ∧ ((sample_las 1 3 [1] [2]).update_example_prediction sorted_batch).2.a_s.length ≠
          (sample_externals 3 [1] [2]).spanner_size
            ((sample_las 1 3 [1] [2]).update_example_prediction sorted_batch).1.spanner_state + 0 := by
  unfold sorted_batch spanner_size_assertion
  rw [update_filtered _ _ _ _ (by decide) (by decide)]
  simp [retained, cb_explore_adf_large_action_space.after_compute_spanner,
    cb_explore_adf_large_action_space.number_of_non_degenerate_singular_values,
    cb_explore_adf_large_action_space.after_randomized_SVD,
    cb_explore_adf_large_action_space.randomized_SVD, sample_las, sample_externals,
    cb_explore_adf_large_action_space.construct, non_degenerate_count, non_degenerate_loop,
    List.range, List.range.loop, List.filter_cons]

/-- C5, amended. In the filtered state, for a prediction list of distinct action ids, the
number of predictions output is the number of input entries that are spanner members, plus
0 when the best action (the first entry) is a spanner member and plus 1 when it is not.
`spanner_size()` is not that number: where the assertion of line 189 holds it is the
number of predictions before the filter, which the output count does not exceed. -/
theorem output_count_members (self : cb_explore_adf_large_action_space F X)
    (e : X.Ex) (first : action_score F) (rest : List (action_score F))
    (hd : self._d < (first :: rest).length)
    (hU : (self.after_randomized_SVD ⟨first :: rest, e⟩).U.rows ≠ 0)
    (hnodup : ((first :: rest).map action_score.action).Nodup) :
    (self.update_example_prediction ⟨first :: rest, e⟩).2.a_s.length =
        ((first :: rest).filter (fun p => X.is_action_in_spanner
          (self.update_example_prediction ⟨first :: rest, e⟩).1.spanner_state p.action)).length
        + (if X.is_action_in_spanner
            (self.update_example_prediction ⟨first :: rest, e⟩).1.spanner_state first.action
          then 0 else 1)
      ∧ (spanner_size_assertion X
            (self.update_example_prediction ⟨first :: rest, e⟩).1.spanner_state (first :: rest) →
          (self.update_example_prediction ⟨first :: rest, e⟩).2.a_s.length
            ≤ X.spanner_size (self.update_example_prediction ⟨first :: rest, e⟩).1.spanner_state) := by
  rw [update_filtered self e first rest hd hU]
  refine ⟨filter_retained_length X _ first rest hnodup, ?_⟩
  intro h
  unfold spanner_size_assertion at h
  rw [h]
  exact List.length_filter_le _ _

theorem output_count_members_witness :
    (sample_las 1 4 [1] [3])._d < ([⟨0, 5⟩, ⟨1, 1⟩, ⟨2, 9⟩, ⟨3, 5⟩] : List (action_score ℚ)).length
      ∧ ((sample_las 1 4 [1] [3]).after_randomized_SVD
          ⟨[⟨0, 5⟩, ⟨1, 1⟩, ⟨2, 9⟩, ⟨3, 5⟩], ()⟩).U.rows ≠ 0
      ∧ (([⟨0, 5⟩, ⟨1, 1⟩, ⟨2, 9⟩, ⟨3, 5⟩] : List (action_score ℚ)).map action_score.action).Nodup
      ∧ ((sample_las 1 4 [1] [3]).update_example_prediction
          ⟨[⟨0, 5⟩, ⟨1, 1⟩, ⟨2, 9⟩, ⟨3, 5⟩], ()⟩).2.a_s.length =
        (([⟨0, 5⟩, ⟨1, 1⟩, ⟨2, 9⟩, ⟨3, 5⟩] : List (action_score ℚ)).filter
          (fun p => (sample_externals 4 [1] [3]).is_action_in_spanner
            ((sample_las 1 4 [1] [3]).update_example_prediction
              ⟨[⟨0, 5⟩, ⟨1, 1⟩, ⟨2, 9⟩, ⟨3, 5⟩], ()⟩).1.spanner_state p.action)).length
        + (if (sample_externals 4 [1] [3]).is_action_in_spanner
            ((sample_las 1 4 [1] [3]).update_example_prediction
              ⟨[⟨0, 5⟩, ⟨1, 1⟩, ⟨2, 9⟩, ⟨3, 5⟩], ()⟩).1.spanner_state 0
          then 0 else 1) :=
  ⟨by decide, by decide, by decide,
    (output_count_members (sample_las 1 4 [1] [3]) () ⟨0, 5⟩ [⟨1, 1⟩, ⟨2, 9⟩, ⟨3, 5⟩]
      (by decide) (by decide) (by decide)).1⟩

/-! ## Effective rank -/

theorem non_degenerate_loop_spec (t : F) :
    ∀ (rest : List F) (c : Nat) (cur : F), ∃ m : Nat,
      non_degenerate_loop t rest c cur = c + m
        ∧ m ≤ rest.length
        ∧ (rest ≠ [] → 1 ≤ m)
        ∧ (∀ j, 1 ≤ j → j < m → ¬ (cur + (rest.take j).sum > t))
        ∧ ((∃ j, 1 ≤ j ∧ j ≤ rest.length ∧ cur + (rest.take j).sum > t) →
            cur + (rest.take m).sum > t)
        ∧ ((∀ j, 1 ≤ j → j ≤ rest.length → ¬ (cur + (rest.take j).sum > t)) →
            m = rest.length) := by
  intro rest
  induction rest with
  | nil =>
    intro c cur
    refine ⟨0, rfl, le_refl _, fun h => absurd rfl h, ?_, ?_, fun _ => rfl⟩
    · intro j h1 h2; omega
    · rintro ⟨j, h1, h2, _⟩; simp at h2; omega
  | cons v vs ih =>
    intro c cur
    by_cases hv : cur + v > t
    · refine ⟨1, ?_, ?_, fun _ => le_refl _, ?_, ?_, ?_⟩
      · simp [non_degenerate_loop, hv]
      · simp
      · intro j h1 h2; omega
      · intro _; simpa using hv
      · intro h
        exact absurd (by simpa using hv) (h 1 (le_refl _) (by simp))
    · obtain ⟨m, hm, hle, _, hbefore, hex, hnone⟩ := ih (c + 1) (cur + v)
      have hsum : ∀ j, 1 ≤ j →
          cur + ((v :: vs).take j).sum = cur + v + (vs.take (j - 1)).sum := by
        intro j hj
        obtain ⟨i, rfl⟩ : ∃ i, j = i + 1 := ⟨j - 1, by omega⟩
        simp [add_assoc]
      refine ⟨m + 1, ?_, ?_, fun _ => by omega, ?_, ?_, ?_⟩
      · simp only [non_degenerate_loop, hv, if_false, hm]; omega
      · simp; omega
      · intro j h1 h2
        by_cases hj : j = 1
        · subst hj; simpa using hv
        · rw [hsum j h1]
          exact hbefore (j - 1) (by omega) (by omega)
      · rintro ⟨j, h1, h2, h3⟩
        have hj : j ≠ 1 := by
          rintro rfl
          exact hv (by simpa using h3)
        rw [hsum (m + 1) (by omega)]
        rw [hsum j h1] at h3
        simp only [List.length_cons] at h2
        exact hex ⟨j - 1, by omega, by omega, h3⟩
      · intro h
        have : m = vs.length := by
          apply hnone
          intro j h1 h2
          have := h (j + 1) (by omega) (by simp; omega)
          rwa [hsum (j + 1) (by omega)] at this
        simp [this]

theorem non_degenerate_count_spec (S : List F) :
    non_degenerate_count S ≤ S.length
      ∧ (S ≠ [] → 1 ≤ non_degenerate_count S)
      ∧ (S = [] → non_degenerate_count S = 0)
      ∧ (∀ j, 1 ≤ j → j < non_degenerate_count S → ¬ exceeds_threshold S j)
      ∧ ((∃ j, 1 ≤ j ∧ j ≤ S.length ∧ exceeds_threshold S j) →
          exceeds_threshold S (non_degenerate_count S))
      ∧ ((∀ j, 1 ≤ j → j ≤ S.length → ¬ exceeds_threshold S j) →
          non_degenerate_count S = S.length) := by
  unfold non_degenerate_count exceeds_threshold leading_sum
  cases S with
  | nil =>
    refine ⟨by simp, fun h => absurd rfl h, fun _ => by simp, ?_, ?_, fun _ => by simp⟩
    · intro j h1 h2; simp at h2
    · rintro ⟨j, h1, h2, _⟩; simp at h2; omega
  | cons v vs =>
    obtain ⟨m, hm, hle, hpos, hbefore, hex, hnone⟩ :=
      non_degenerate_loop_spec (99 / 100 * (v :: vs).sum) (v :: vs) 0 0
    simp only [zero_add] at hm hbefore hex hnone
    have hlen : (v :: vs).length > 0 := by simp
    simp only [hlen, if_true, hm]
    exact ⟨hle, fun _ => hpos (by simp), fun h => by simp at h, hbefore, hex, hnone⟩

theorem non_degenerate_loop_float_spec (ops : float_ops F) (t : F) :
    ∀ (rest : List F) (c : Nat) (cur : F), ∃ m : Nat,
      non_degenerate_loop_float ops t rest c cur = c + m
        ∧ m ≤ rest.length
        ∧ (rest ≠ [] → 1 ≤ m)
        ∧ (∀ j, 1 ≤ j → j < m → ¬ ((rest.take j).foldl ops.add cur > t))
        ∧ ((∃ j, 1 ≤ j ∧ j ≤ rest.length ∧ (rest.take j).foldl ops.add cur > t) →
            (rest.take m).foldl ops.add cur > t) := by
  intro rest
  induction rest with
  | nil =>
    intro c cur
    refine ⟨0, rfl, le_refl _, fun h => absurd rfl h, ?_, ?_⟩
    · intro j h1 h2; omega
    · rintro ⟨j, h1, h2, _⟩; simp at h2; omega
  | cons v vs ih =>
    intro c cur
    by_cases hv : ops.add cur v > t
    · refine ⟨1, ?_, ?_, fun _ => le_refl _, ?_, ?_⟩
      · simp [non_degenerate_loop_float, hv]
      · simp
      · intro j h1 h2; omega
      · intro _; simpa using hv
    · obtain ⟨m, hm, hle, _, hbefore, hex⟩ := ih (c + 1) (ops.add cur v)
      have hsum : ∀ j, 1 ≤ j →
          ((v :: vs).take j).foldl ops.add cur = (vs.take (j - 1)).foldl ops.add (ops.add cur v) := by
        intro j hj
        obtain ⟨i, rfl⟩ : ∃ i, j = i + 1 := ⟨j - 1, by omega⟩
        simp
      refine ⟨m + 1, ?_, ?_, fun _ => by omega, ?_, ?_⟩
      · simp only [non_degenerate_loop_float, hv, if_false, hm]; omega
      · simp; omega
      · intro j h1 h2
        by_cases hj : j = 1
        · subst hj; simpa using hv
        · rw [hsum j h1]
          exact hbefore (j - 1) (by omega) (by omega)
      · rintro ⟨j, h1, h2, h3⟩
        have hj : j ≠ 1 := by
          rintro rfl
          exact hv (by simpa using h3)
        rw [hsum (m + 1) (by omega)]
        rw [hsum j h1] at h3
        simp only [List.length_cons] at h2
        exact hex ⟨j - 1, by omega, by omega, h3⟩

theorem non_degenerate_loop_float_exact (t : F) :
    ∀ (rest : List F) (c : Nat) (cur : F),
      non_degenerate_loop_float exact_ops t rest c cur = non_degenerate_loop t rest c cur := by
  intro rest
  induction rest with
  | nil => intro c cur; rfl
  | cons v vs ih =>
    intro c cur
    have h := ih (c + 1) (cur + v)
    simp only [non_degenerate_loop_float, non_degenerate_loop, exact_ops] at h ⊢
    rw [h]

theorem non_degenerate_count_float_exact (S : List F) :
    non_degenerate_count_float exact_ops S = non_degenerate_count S := by
  unfold non_degenerate_count_float non_degenerate_count
  rw [non_degenerate_loop_float_exact]
  rfl

/-- C6, as stated, fails: for the singular values 0, 0 the function returns 2, and the
cumulative sum of the first two values, 0, does not exceed 99% of the total, 0.  On this
input every float operation is exact, and the function with float operations agrees. -/
theorem non_degenerate_count_counterexample :
    non_degenerate_count ([0, 0] : List ℚ) = 2
      ∧ ¬ exceeds_threshold ([0, 0] : List ℚ) (non_degenerate_count ([0, 0] : List ℚ))
      ∧ non_degenerate_count_float exact_ops ([0, 0] : List ℚ) = 2
      ∧ ¬ (running_sum exact_ops ([0, 0] : List ℚ) 2
            > computed_threshold exact_ops ([0, 0] : List ℚ)) := by
  have h : non_degenerate_count ([0, 0] : List ℚ) = 2 := by
    simp [non_degenerate_count, non_degenerate_loop]
  refine ⟨h, ?_, ?_, ?_⟩
  · rw [h]
    simp [exceeds_threshold, leading_sum]
  · rw [non_degenerate_count_float_exact, h]
  · simp [running_sum, computed_threshold, exact_ops]

theorem sample_float_ops_threshold :
    computed_threshold sample_float_ops [9900049, 100000] = 9900049 := by
  have h : round (41523813465689 / 4194304 : ℚ) = 9900049 := by
    rw [round_eq, Int.floor_eq_iff]
    constructor <;> norm_num
  simp only [computed_threshold, sample_float_ops]
  norm_num [h]

theorem non_degenerate_count_float_rounded :
    non_degenerate_count_float sample_float_ops [9900049, 100000] = 2
      ∧ non_degenerate_count ([9900049, 100000] : List ℚ) = 1 := by
  constructor
  · unfold non_degenerate_count_float
    rw [sample_float_ops_threshold]
    norm_num [non_degenerate_loop_float, sample_float_ops]
  · norm_num [non_degenerate_count, non_degenerate_loop]

/-- C6, amended. For every sequence `S` in which, for some count `k >= 1`, the running sum of
the first `k` values as the code accumulates it exceeds the threshold as the code computes
it (`0.99f * S.sum()`), `number_of_non_degenerate_singular_values` returns the smallest
such count: it lies between 1 and the length of `S`, the running sum after that many values
exceeds the computed threshold, and the running sum after no smaller count `k >= 1` does.
The float operations are arbitrary, so this holds of the rounded arithmetic. -/
theorem non_degenerate_count_smallest (ops : float_ops F) (S : List F)
    (hex : ∃ j, 1 ≤ j ∧ j ≤ S.length ∧ running_sum ops S j > computed_threshold ops S) :
    1 ≤ non_degenerate_count_float ops S
      ∧ non_degenerate_count_float ops S ≤ S.length
      ∧ running_sum ops S (non_degenerate_count_float ops S) > computed_threshold ops S
      ∧ ∀ j, 1 ≤ j → j < non_degenerate_count_float ops S →
          ¬ (running_sum ops S j > computed_threshold ops S) := by
  obtain ⟨m, hm, hle, hpos, hbefore, hfound⟩ :=
    non_degenerate_loop_float_spec ops (computed_threshold ops S) S 0 0
  have hne : S ≠ [] := by
    rintro rfl
    obtain ⟨j, h1, h2, _⟩ := hex
    simp at h2
    omega
  have hlen : S.length > 0 := List.length_pos.mpr hne
  have hcount : non_degenerate_count_float ops S = m := by
    simp only [non_degenerate_count_float, hlen, if_true, hm, zero_add]
  rw [hcount]
  exact ⟨hpos hne, hle, hfound hex, hbefore⟩

theorem non_degenerate_count_smallest_witness :
    (∃ j, 1 ≤ j ∧ j ≤ ([9900049, 100000] : List ℚ).length
        ∧ running_sum sample_float_ops [9900049, 100000] j
            > computed_threshold sample_float_ops [9900049, 100000])
      ∧ running_sum sample_float_ops [9900049, 100000]
            (non_degenerate_count_float sample_float_ops [9900049, 100000])
          > computed_threshold sample_float_ops [9900049, 100000] :=
  have h : ∃ j, 1 ≤ j ∧ j ≤ ([9900049, 100000] : List ℚ).length
      ∧ running_sum sample_float_ops [9900049, 100000] j
          > computed_threshold sample_float_ops [9900049, 100000] := by
    refine ⟨2, by decide, by decide, ?_⟩
    rw [sample_float_ops_threshold]
    norm_num [running_sum, sample_float_ops]
  ⟨h, (non_degenerate_count_smallest sample_float_ops [9900049, 100000] h).2.2.1⟩

theorem min_element_fold (rest : List (action_score F)) :
    ∀ acc : action_score F,
      min_element acc rest ∈ acc :: rest
        ∧ (min_element acc rest).score ≤ acc.score
        ∧ ∀ p ∈ rest, (min_element acc rest).score ≤ p.score := by
  unfold min_element
  induction rest with
  | nil => intro acc; simp
  | cons x xs ih =>
    intro acc
    simp only [List.foldl_cons]
    by_cases hx : x.lt acc = true
    · obtain ⟨hmem, hle, hall⟩ := ih x
      have hlt : x.score < acc.score := by simpa [action_score.lt] using hx
      simp only [hx, if_true]
      refine ⟨List.mem_cons_of_mem _ hmem, le_trans hle (le_of_lt hlt), ?_⟩
      intro p hp
      rcases List.mem_cons.mp hp with rfl | hp
      · exact hle
      · exact hall p hp
    · obtain ⟨hmem, hle, hall⟩ := ih acc
      have hge : acc.score ≤ x.score := by simpa [action_score.lt] using hx
      have hx0 : x.lt acc = false := by simpa using hx
      simp only [hx0, Bool.false_eq_true, if_false]
      refine ⟨?_, hle, ?_⟩
      · rcases List.mem_cons.mp hmem with h | h
        · rw [h]; exact List.mem_cons_self _ _
        · exact List.mem_cons_of_mem _ (List.mem_cons_of_mem _ h)
      · intro p hp
        rcases List.mem_cons.mp hp with rfl | hp
        · exact le_trans hle hge
        · exact hall p hp

/-- C8, as stated, fails for a negative `gamma_scale`: with `gamma_scale = -4`,
`gamma_exponent = 0`, counter 1, rank 1 and the scores 0 and 1, the factor of the second
action is `sqrt(1 + 1 + (-4 / 4) * (1 - 0)) = sqrt 1`, below `sqrt(1 + 1)`. -/
theorem shrink_factor_bound_counterexample :
    (⟨-4, 0, true⟩ : shrink_factor_config ℝ).calculate_shrink_factor Real.sqrt
        (fun n e => (n : ℝ) ^ e) 1 1 [⟨0, 0⟩, ⟨1, 1⟩] [] = [Real.sqrt 2, Real.sqrt 1]
      ∧ ∃ f ∈ (⟨-4, 0, true⟩ : shrink_factor_config ℝ).calculate_shrink_factor Real.sqrt
          (fun n e => (n : ℝ) ^ e) 1 1 [⟨0, 0⟩, ⟨1, 1⟩] [], f < Real.sqrt (1 + ((1 : ℕ) : ℝ)) := by
  have h : (⟨-4, 0, true⟩ : shrink_factor_config ℝ).calculate_shrink_factor Real.sqrt
      (fun n e => (n : ℝ) ^ e) 1 1 [⟨0, 0⟩, ⟨1, 1⟩] [] = [Real.sqrt 2, Real.sqrt 1] := by
    simp only [shrink_factor_config.calculate_shrink_factor, min_element, action_score.lt,
      List.foldl_cons, List.foldl_nil, List.map_cons, List.map_nil, if_true]
    norm_num
  refine ⟨h, Real.sqrt 1, ?_, ?_⟩
  · rw [h]; simp
  · apply Real.sqrt_lt_sqrt <;> norm_num

/-- C8, amended. With `apply_shrink_factor` enabled, for every round counter, every rank
`d >= 1` and every non-empty prediction list, `calculate_shrink_factor` produces one factor
per action, in the order of the list, with
`factor_i = sqrt(1 + d + (gamma / (4 * d)) * (score_i - min_score))`, where `min_score` is the
minimum score of the list and `gamma = gamma_scale * counter^gamma_exponent`; when `gamma`
is not negative (and `sqrt` is monotone), every factor is at least `sqrt(1 + d)`. -/
theorem calculate_shrink_factor_enabled (cfg : shrink_factor_config F) (sqrt : F → F)
    (pow : Nat → F → F) (counter d : Nat) (first : action_score F)
    (rest : List (action_score F)) (prior : List F)
    (happly : cfg._apply_shrink_factor = true) (hd : 1 ≤ d) :
    ∃ min_score : F,
      (∃ p ∈ first :: rest, p.score = min_score)
        ∧ (∀ p ∈ first :: rest, min_score ≤ p.score)
        ∧ cfg.calculate_shrink_factor sqrt pow counter d (first :: rest) prior =
            (first :: rest).map (fun p => sqrt (1 + (d : F)
              + cfg._gamma_scale * pow counter cfg._gamma_exponent / (4 * (d : F))
                * (p.score - min_score)))
        ∧ (Monotone sqrt → 0 ≤ cfg._gamma_scale * pow counter cfg._gamma_exponent →
            ∀ f ∈ cfg.calculate_shrink_factor sqrt pow counter d (first :: rest) prior,
              sqrt (1 + (d : F)) ≤ f) := by
  obtain ⟨hmem, hfirst, hrest⟩ := min_element_fold rest first
  have hmin : ∀ p ∈ first :: rest, (min_element first rest).score ≤ p.score := by
    intro p hp
    rcases List.mem_cons.mp hp with rfl | hp
    · exact hfirst
    · exact hrest p hp
  have heq : cfg.calculate_shrink_factor sqrt pow counter d (first :: rest) prior =
      (first :: rest).map (fun p => sqrt (1 + (d : F)
        + cfg._gamma_scale * pow counter cfg._gamma_exponent / (4 * (d : F))
          * (p.score - (min_element first rest).score))) := by
    simp only [shrink_factor_config.calculate_shrink_factor, happly, if_true]
    push_cast
    rfl
  refine ⟨(min_element first rest).score, ⟨_, hmem, rfl⟩, hmin, heq, ?_⟩
  intro hsqrt hgamma f hf
  rw [heq] at hf
  obtain ⟨p, hp, rfl⟩ := List.mem_map.mp hf
  apply hsqrt
  have h1 : 0 ≤ p.score - (min_element first rest).score := sub_nonneg.mpr (hmin p hp)
  have h2 : 0 ≤ cfg._gamma_scale * pow counter cfg._gamma_exponent / (4 * (d : F)) :=
    div_nonneg hgamma (by positivity)
  have h3 := mul_nonneg h2 h1
  linarith

theorem calculate_shrink_factor_enabled_witness :
    (⟨10, 1 / 2, true⟩ : shrink_factor_config ℝ)._apply_shrink_factor = true
      ∧ 1 ≤ 2
      ∧ ∃ min_score : ℝ, (∀ p ∈ ([⟨0, 1⟩, ⟨1, 3⟩] : List (action_score ℝ)), min_score ≤ p.score)
        ∧ (⟨10, 1 / 2, true⟩ : shrink_factor_config ℝ).calculate_shrink_factor Real.sqrt
            (fun n e => (n : ℝ) ^ e) 4 2 [⟨0, 1⟩, ⟨1, 3⟩] [] =
          ([⟨0, 1⟩, ⟨1, 3⟩] : List (action_score ℝ)).map (fun p => Real.sqrt (1 + ((2 : ℕ) : ℝ)
            + 10 * ((4 : ℕ) : ℝ) ^ ((1 : ℝ) / 2) / (4 * ((2 : ℕ) : ℝ)) * (p.score - min_score)))
        ∧ ∀ f ∈ (⟨10, 1 / 2, true⟩ : shrink_factor_config ℝ).calculate_shrink_factor Real.sqrt
            (fun n e => (n : ℝ) ^ e) 4 2 [⟨0, 1⟩, ⟨1, 3⟩] [], Real.sqrt (1 + ((2 : ℕ) : ℝ)) ≤ f := by
  obtain ⟨m, _, hmin, heq, hbound⟩ :=
    calculate_shrink_factor_enabled (⟨10, 1 / 2, true⟩ : shrink_factor_config ℝ) Real.sqrt
      (fun n e => (n : ℝ) ^ e) 4 2 ⟨0, 1⟩ [⟨1, 3⟩] [] rfl (by decide)
  exact ⟨rfl, by decide, m, hmin, heq,
    hbound (fun _ _ h => Real.sqrt_le_sqrt h) (by positivity)⟩

theorem vector_resize_length {α : Type} (v : List α) (n : Nat) (value : α) :
    (vector_resize v n value).length = n := by
  simp [vector_resize]; omega

theorem vector_resize_all_eq {α : Type} (v : List α) (n : Nat) (value : α) :
    (∀ x ∈ vector_resize v n value, x = value) ↔ ∀ x ∈ v.take n, x = value := by
  unfold vector_resize
  constructor
  · intro h x hx
    exact h x (List.mem_append_left _ hx)
  · intro h x hx
    rcases List.mem_append.mp hx with hx | hx
    · exact h x hx
    · exact List.eq_of_mem_replicate hx

/-- C9, as stated, fails: with `apply_shrink_factor` disabled, one prediction and the prior
content 2.0, `calculate_shrink_factor` leaves the vector as it was, and its element is not
1.0. -/
theorem shrink_factor_disabled_counterexample :
    (⟨1, 0, false⟩ : shrink_factor_config ℚ).calculate_shrink_factor
        (sample_externals 0 [] []).sqrt (sample_externals 0 [] []).pow 0 1 [⟨0, 0⟩] [2] = [2]
      ∧ ∃ x ∈ (⟨1, 0, false⟩ : shrink_factor_config ℚ).calculate_shrink_factor
          (sample_externals 0 [] []).sqrt (sample_externals 0 [] []).pow 0 1 [⟨0, 0⟩] [2],
          x ≠ 1 := by
  have h : (⟨1, 0, false⟩ : shrink_factor_config ℚ).calculate_shrink_factor
      (sample_externals 0 [] []).sqrt (sample_externals 0 [] []).pow 0 1 [⟨0, 0⟩] [2] = [2] := by
    simp [shrink_factor_config.calculate_shrink_factor, vector_resize]
  refine ⟨h, 2, ?_, by norm_num⟩
  rw [h]; simp

/-- C9, amended. With `apply_shrink_factor` disabled, for every prediction list and every
prior content of `shrink_factors`, `calculate_shrink_factor` leaves a sequence whose length
is the action count `n`; its elements are all 1.0 exactly when the first `n` entries of the
prior content are all 1.0, as they are for the empty vector the orchestrator starts
with. -/
theorem calculate_shrink_factor_disabled (cfg : shrink_factor_config F) (sqrt : F → F)
    (pow : Nat → F → F) (counter d : Nat) (preds : List (action_score F)) (prior : List F)
    (happly : cfg._apply_shrink_factor = false) :
    (cfg.calculate_shrink_factor sqrt pow counter d preds prior).length = preds.length
      ∧ ((∀ x ∈ cfg.calculate_shrink_factor sqrt pow counter d preds prior, x = 1) ↔
          ∀ x ∈ prior.take preds.length, x = 1)
      ∧ (prior = [] →
          ∀ x ∈ cfg.calculate_shrink_factor sqrt pow counter d preds prior, x = 1) := by
  have heq : cfg.calculate_shrink_factor sqrt pow counter d preds prior
      = vector_resize prior preds.length 1 := by
    simp [shrink_factor_config.calculate_shrink_factor, happly]
  rw [heq]
  refine ⟨vector_resize_length _ _ _, vector_resize_all_eq _ _ _, ?_⟩
  intro hnil
  rw [vector_resize_all_eq, hnil]
  simp

theorem calculate_shrink_factor_disabled_witness :
    (⟨1, 0, false⟩ : shrink_factor_config ℚ)._apply_shrink_factor = false
      ∧ ((⟨1, 0, false⟩ : shrink_factor_config ℚ).calculate_shrink_factor
          (sample_externals 0 [] []).sqrt (sample_externals 0 [] []).pow 0 1
          unsorted_batch.a_s []).length = unsorted_batch.a_s.length :=
  ⟨rfl, (calculate_shrink_factor_disabled (⟨1, 0, false⟩ : shrink_factor_config ℚ)
    (sample_externals 0 [] []).sqrt (sample_externals 0 [] []).pow 0 1 unsorted_batch.a_s []
    rfl).1⟩

/-! ## Feature matrix builder -/

/-- C10: the code at an input where it departs from the claim.  One action with a single
activation, of value 1 at an index that the mask sends to column 0: the triplet
`(0, 0, 1)` is recorded, and yet `_A` is the 0x0 matrix and the function returns false. -/
theorem generate_A_column_zero :
    (_test_only_generate_A ⟨false, 262143, 262143⟩ [[((1 : ℚ), 0)]]).1 = false
      ∧ (_test_only_generate_A ⟨false, 262143, 262143⟩ [[((1 : ℚ), 0)]]).2.1.map
          (fun t => (t.row, t.col, t.value)) = [(0, 0, 1)]
      ∧ (_test_only_generate_A ⟨false, 262143, 262143⟩ [[((1 : ℚ), 0)]]).2.2.rows = 0
      ∧ (_test_only_generate_A ⟨false, 262143, 262143⟩ [[((1 : ℚ), 0)]]).2.2.cols = 0 := by
  simp [_test_only_generate_A, generate_A_step, foreach_feature, A_triplet_constructor.set]

theorem foreach_feature_spec (activations : List (F × Nat)) :
    ∀ w : A_triplet_constructor F,
      (foreach_feature activations w)._weights_mask = w._weights_mask
        ∧ (foreach_feature activations w)._row_index = w._row_index
        ∧ (foreach_feature activations w)._triplets = w._triplets ++
            (activations.filter (fun a => decide (a.1 ≠ 0))).map
              (fun a => ⟨w._row_index, a.2 &&& w._weights_mask, a.1⟩)
        ∧ (foreach_feature activations w)._max_col =
            ((activations.filter (fun a => decide (a.1 ≠ 0))).map
              (fun a => a.2 &&& w._weights_mask)).foldl max w._max_col := by
  unfold foreach_feature
  induction activations with
  | nil => intro w; simp
  | cons a rest ih =>
    intro w
    simp only [List.foldl_cons]
    obtain ⟨h1, h2, h3, h4⟩ := ih (w.set a.1 a.2)
    by_cases hv : a.1 = 0
    · have hw : w.set a.1 a.2 = w := by simp [A_triplet_constructor.set, hv]
      rw [hw] at h1 h2 h3 h4 ⊢
      simp only [List.filter_cons, hv, ne_eq, not_true_eq_false, decide_False,
        Bool.false_eq_true, if_false]
      exact ⟨h1, h2, h3, h4⟩
    · by_cases hgt : (a.2 &&& w._weights_mask) > w._max_col
      · have hw : w.set a.1 a.2 =
            ⟨w._weights_mask, w._row_index,
              w._triplets ++ [⟨w._row_index, a.2 &&& w._weights_mask, a.1⟩],
              a.2 &&& w._weights_mask⟩ := by
          simp [A_triplet_constructor.set, hv, hgt]
        rw [hw] at h1 h2 h3 h4 ⊢
        simp only [List.filter_cons, hv, ne_eq, not_false_eq_true, decide_True, if_true,
          List.map_cons, List.foldl_cons]
        refine ⟨h1, h2, by simpa using h3, ?_⟩
        rw [h4, max_eq_right (le_of_lt hgt)]
      · have hw : w.set a.1 a.2 =
            ⟨w._weights_mask, w._row_index,
              w._triplets ++ [⟨w._row_index, a.2 &&& w._weights_mask, a.1⟩], w._max_col⟩ := by
          simp [A_triplet_constructor.set, hv, hgt]
        rw [hw] at h1 h2 h3 h4 ⊢
        simp only [List.filter_cons, hv, ne_eq, not_false_eq_true, decide_True, if_true,
          List.map_cons, List.foldl_cons]
        refine ⟨h1, h2, by simpa using h3, ?_⟩
        rw [h4, max_eq_left (not_lt.mp hgt)]

/-- C11. For every feature value and raw index passed to `A_triplet_constructor::set` with
weights mask `m`: nothing is recorded when the value is zero; when it is nonzero one triplet
is added, with the row index of the constructor, the column `index AND m` and the value;
that column is at most `m`, hence below the table size `m + 1`; and `max_col` becomes the
maximum of its previous value and the column.  Over the calls made for one example,
`max_col` ends as the maximum of its previous value and every recorded column. -/
theorem A_triplet_constructor_set_records (w : A_triplet_constructor F) (feature_value : F)
    (index : Nat) (activations : List (F × Nat)) :
    ((w.set feature_value index)._triplets ≠ w._triplets ↔ feature_value ≠ 0)
      ∧ (w.set feature_value index)._triplets =
          (if feature_value ≠ 0 then
            w._triplets ++ [⟨w._row_index, index &&& w._weights_mask, feature_value⟩]
          else w._triplets)
      ∧ (index &&& w._weights_mask) ≤ w._weights_mask
      ∧ (index &&& w._weights_mask) < w._weights_mask + 1
      ∧ (w.set feature_value index)._max_col =
          (if feature_value ≠ 0 then max w._max_col (index &&& w._weights_mask) else w._max_col)
      ∧ (foreach_feature activations w)._max_col =
          ((activations.filter (fun a => decide (a.1 ≠ 0))).map
            (fun a => a.2 &&& w._weights_mask)).foldl max w._max_col := by
  have hle : (index &&& w._weights_mask) ≤ w._weights_mask := Nat.and_le_right
  refine ⟨?_, ?_, hle, Nat.lt_succ_of_le hle, ?_, (foreach_feature_spec activations w).2.2.2⟩
  · by_cases hv : feature_value = 0
    · simp [A_triplet_constructor.set, hv]
    · by_cases hgt : (index &&& w._weights_mask) > w._max_col <;>
        simp [A_triplet_constructor.set, hv, hgt]
  · by_cases hv : feature_value = 0
    · simp [A_triplet_constructor.set, hv]
    · by_cases hgt : (index &&& w._weights_mask) > w._max_col <;>
        simp [A_triplet_constructor.set, hv, hgt]
  · by_cases hv : feature_value = 0
    · simp [A_triplet_constructor.set, hv]
    · by_cases hgt : (index &&& w._weights_mask) > w._max_col
      · simp [A_triplet_constructor.set, hv, hgt, max_eq_right (le_of_lt hgt)]
      · simp [A_triplet_constructor.set, hv, hgt, max_eq_left (not_lt.mp hgt)]

/-! ## Learning, prediction and the round counter -/

theorem update_example_prediction_counter (self : cb_explore_adf_large_action_space F X)
    (examples : multi_ex F X.Ex) :
    (self.update_example_prediction examples).1._counter = self._counter := by
  unfold cb_explore_adf_large_action_space.update_example_prediction
  by_cases h : self._d < examples.a_s.length
  · simp only [h, dite_true]
    by_cases hU : (self.after_randomized_SVD examples).U.rows = 0
    · simp only [hU, if_true]; rfl
    · simp only [hU, if_false]; rfl
  · simp only [h, dite_false]

theorem predict_or_learn_impl_counter (L : multi_learner F X.Ex)
    (self : cb_explore_adf_large_action_space F X) (base : L.Base) (examples : multi_ex F X.Ex)
    (is_learn : Bool) :
    (self.predict_or_learn_impl is_learn L base examples).1._counter =
      self._counter + (if is_learn then 1 else 0) := by
  unfold cb_explore_adf_large_action_space.predict_or_learn_impl
  cases is_learn
  · simp [update_example_prediction_counter]
  · cases hl : L.learn_returns_prediction <;> simp [update_example_prediction_counter]

theorem run_calls_counter (L : multi_learner F X.Ex) (calls : List (Bool × multi_ex F X.Ex)) :
    ∀ start : cb_explore_adf_large_action_space F X × L.Base,
      (run_calls L start calls).1._counter =
        start.1._counter + (calls.filter (fun call => call.1)).length := by
  unfold run_calls
  induction calls with
  | nil => intro start; simp
  | cons call rest ih =>
    intro start
    simp only [List.foldl_cons]
    rw [ih, predict_or_learn_impl_counter]
    cases hc : call.1
    · simp [List.filter_cons, hc]
    · simp [List.filter_cons, hc]; omega

/-- C12. A learning call (`predict_or_learn_impl` with `is_learn = true`) leaves the round
counter one higher, whatever the base learner reports and whichever branch
`update_example_prediction` takes; a prediction-only call leaves it as it was; a freshly
constructed orchestrator has counter 0; so after any sequence of calls on a fresh
orchestrator the counter is the number of learning calls made. -/
theorem round_counter_counts_learning_calls (L : multi_learner F X.Ex)
    (self : cb_explore_adf_large_action_space F X) (base : L.Base) (examples : multi_ex F X.Ex)
    (d seed : Nat) (gamma_scale gamma_exponent : F) (apply_shrink_factor : Bool)
    (spanner_state : X.Spanner) (impl : X.Impl)
    (calls : List (Bool × multi_ex F X.Ex)) :
    (self.predict_or_learn_impl true L base examples).1._counter = self._counter + 1
      ∧ (self.predict_or_learn_impl false L base examples).1._counter = self._counter
      ∧ (cb_explore_adf_large_action_space.construct X d gamma_scale gamma_exponent
          apply_shrink_factor seed spanner_state impl)._counter = 0
      ∧ (run_calls L (self, base) calls).1._counter =
          self._counter + (calls.filter (fun call => call.1)).length
      ∧ (run_calls L (cb_explore_adf_large_action_space.construct X d gamma_scale gamma_exponent
          apply_shrink_factor seed spanner_state impl, base) calls).1._counter =
          (calls.filter (fun call => call.1)).length := by
  refine ⟨?_, ?_, rfl, run_calls_counter L calls _, ?_⟩
  · rw [predict_or_learn_impl_counter]; rfl
  · rw [predict_or_learn_impl_counter]; rfl
  · rw [run_calls_counter]
    simp [cb_explore_adf_large_action_space.construct]

/-- C13. On a learning call the base learner's `learn` is invoked first, and
`update_example_prediction` runs on the batch it left exactly when
`learn_returns_prediction` is true; when it is false the batch is what the base learner
left and only the counter of the object changes.  On a prediction-only call the base
learner's `predict` is invoked and `update_example_prediction` always runs on its
result. -/
theorem learn_and_predict_pipeline (L : multi_learner F X.Ex)
    (self : cb_explore_adf_large_action_space F X) (base : L.Base)
    (examples : multi_ex F X.Ex) :
    (self.learn L base examples).2.1 = (L.learn base examples).1
      ∧ (L.learn_returns_prediction = true →
          (self.learn L base examples).2.2
              = (self.update_example_prediction (L.learn base examples).2).2
            ∧ (self.learn L base examples).1 =
              { (self.update_example_prediction (L.learn base examples).2).1 with
                _counter := self._counter + 1 })
      ∧ (L.learn_returns_prediction = false →
          (self.learn L base examples).2.2 = (L.learn base examples).2
            ∧ (self.learn L base examples).1 = { self with _counter := self._counter + 1 })
      ∧ (self.predict L base examples) =
          ((self.update_example_prediction (L.predict base examples).2).1,
            (L.predict base examples).1,
            (self.update_example_prediction (L.predict base examples).2).2) := by
  unfold cb_explore_adf_large_action_space.learn cb_explore_adf_large_action_space.predict
    cb_explore_adf_large_action_space.predict_or_learn_impl
  refine ⟨rfl, ?_, ?_, rfl⟩
  · intro h
    simp [h, update_example_prediction_counter]
  · intro h
    simp [h]

theorem learn_and_predict_pipeline_witness :
    (sample_learner false).learn_returns_prediction = false
      ∧ ((sample_las 1 4 [1] [3]).learn (sample_learner false) (0 : Nat) unsorted_batch).2.2
          = unsorted_batch
      ∧ ((sample_las 1 4 [1] [3]).learn (sample_learner false) (0 : Nat) unsorted_batch).2.1
          = (1 : Nat) :=
  ⟨by rfl,
    ((learn_and_predict_pipeline (sample_learner false) (sample_las 1 4 [1] [3]) (0 : Nat)
      unsorted_batch).2.2.1 (by rfl)).1,
    (learn_and_predict_pipeline (sample_learner false) (sample_las 1 4 [1] [3]) (0 : Nat)
      unsorted_batch).1⟩

/-! ## Persistence -/

/-- C14. Round trip of the counter: `save_load` in write mode on a buffer with at least one
file adds one field and leaves the object as it is; `save_load` in read mode on a buffer
with at least one file that starts with what was written sets the counter of the reading
object to the value written.  On a buffer with no files `save_load` changes neither the
buffer nor the object. -/
theorem save_load_round_trip (self other : cb_explore_adf_large_action_space F X)
    (io : io_buf) (files : Nat) (rest : List model_field) (text text_read : Bool)
    (hfiles : io.num_files ≠ 0) (hread : files ≠ 0) :
    (self.save_load io false text).1 = self
      ∧ ((self.save_load io false text).2.fields.drop io.fields.length).length = 1
      ∧ (other.save_load
            ⟨files, (self.save_load io false text).2.fields.drop io.fields.length ++ rest⟩
            true text_read).1._counter = self._counter
      ∧ ∀ (empty : io_buf) (read : Bool), empty.num_files = 0 →
          self.save_load empty read text = (self, empty) := by
  have hw : (self.save_load io false text).2.fields.drop io.fields.length
      = [⟨counter_field_name, self._counter, text⟩] := by
    simp [cb_explore_adf_large_action_space.save_load, hfiles, write_model_field]
  refine ⟨?_, ?_, ?_, ?_⟩
  · simp [cb_explore_adf_large_action_space.save_load, hfiles]
  · rw [hw]; rfl
  · rw [hw]
    simp [cb_explore_adf_large_action_space.save_load, hread, read_model_field]
  · intro empty read h0
    simp [cb_explore_adf_large_action_space.save_load, h0]

theorem save_load_round_trip_witness :
    (⟨1, []⟩ : io_buf).num_files ≠ 0 ∧ 1 ≠ 0
      ∧ ((sample_las 1 4 [1] [3]).save_load
            ⟨1, ((sample_las_with_counter 5).save_load ⟨1, []⟩ false false).2.fields.drop
              (⟨1, []⟩ : io_buf).fields.length ++ []⟩
            true false).1._counter = (sample_las_with_counter 5)._counter :=
  ⟨by decide, by decide,
    (save_load_round_trip (sample_las_with_counter 5) (sample_las 1 4 [1] [3]) ⟨1, []⟩ 1 []
      false false (by decide) (by decide)).2.2.1⟩

/-! ## Setup -/

theorem default_thread_pool_size_zero : default_thread_pool_size 0 = 2147483647 := by
  decide

/-- C16, as stated, fails: with 8 hardware threads reported and the option not supplied, the
pool size is `(8 - 1) / 2 = 3`, not half of 8. -/
theorem thread_pool_size_counterexample :
    thread_pool_size none 8 = 3 ∧ thread_pool_size none 8 ≠ 8 / 2 := by
  decide

/-- C16, amended. When the option `thread_pool_size` is not supplied and the platform reports
a hardware concurrency `h >= 1`, the pool size is `(h - 1) / 2` in integer division: half
of `h` rounded down when `h` is odd, one less than half of `h` when `h` is even. -/
theorem thread_pool_size_default (h : Nat) (hpos : 1 ≤ h) (hrange : h < 2 ^ 32) :
    thread_pool_size none h = (h - 1) / 2
      ∧ (h % 2 = 1 → thread_pool_size none h = h / 2)
      ∧ (h % 2 = 0 → thread_pool_size none h = h / 2 - 1) := by
  have hmod : (h + 2 ^ 32 - 1) % 2 ^ 32 = h - 1 := by
    have e : h + 2 ^ 32 - 1 = (h - 1) + 2 ^ 32 := by omega
    rw [e, Nat.add_mod_right, Nat.mod_eq_of_lt (by omega)]
  have hval : thread_pool_size none h = (h - 1) / 2 := by
    simp only [thread_pool_size, default_thread_pool_size, hmod]
  refine ⟨hval, ?_, ?_⟩ <;> intro hp <;> rw [hval] <;> omega

theorem thread_pool_size_default_witness :
    1 ≤ 8 ∧ 8 < 2 ^ 32 ∧ thread_pool_size none 8 = (8 - 1) / 2 :=
  ⟨by decide, by decide, (thread_pool_size_default 8 (by decide) (by decide)).1⟩

/-! ## Implicit properties -/

/-- C17. The loop of lines 202-207 keeps the head and is idempotent: on a non-empty
prediction list, for every spanner state, the filtered list is non-empty, its first element
is the first element of the input, and running the loop on the result, with the best action
read from the result, returns the result unchanged. -/
theorem erase_loop_idempotent (X : externals F) (sp : X.Spanner) (first : action_score F)
    (rest : List (action_score F)) :
    erase_loop X sp first.action (first :: rest) 0 ≠ []
      ∧ (erase_loop X sp first.action (first :: rest) 0).head? = some first
      ∧ ∃ kept : List (action_score F),
          erase_loop X sp first.action (first :: rest) 0 = first :: kept
            ∧ erase_loop X sp first.action (first :: kept) 0 = first :: kept := by
  have h : erase_loop X sp first.action (first :: rest) 0
      = first :: rest.filter (retained X sp first.action) := by
    rw [erase_loop_zero]
    simp [List.filter_cons, retained_first]
  rw [h]
  refine ⟨by simp, by simp, rest.filter (retained X sp first.action), rfl, ?_⟩
  rw [erase_loop_zero]
  simp [List.filter_cons, retained_first]

/-- C18. When no non-empty leading part of `S` has a cumulative sum above 0.99 times the
total (as when every singular value is 0), `number_of_non_degenerate_singular_values`
returns the length of `S`; and in every case the count is 0 exactly when `S` is empty and
otherwise lies between 1 and the length of `S`. -/
theorem non_degenerate_count_full_length (S : List F)
    (hnone : ∀ j, 1 ≤ j → j ≤ S.length → ¬ exceeds_threshold S j) :
    non_degenerate_count S = S.length
      ∧ (∀ T : List F, (non_degenerate_count T = 0 ↔ T = [])
          ∧ (T ≠ [] → 1 ≤ non_degenerate_count T ∧ non_degenerate_count T ≤ T.length)) := by
  refine ⟨(non_degenerate_count_spec S).2.2.2.2.2 hnone, ?_⟩
  intro T
  obtain ⟨hle, hpos, hnil, _, _, _⟩ := non_degenerate_count_spec T
  refine ⟨⟨?_, hnil⟩, fun h => ⟨hpos h, hle⟩⟩
  intro h0
  by_contra hT
  have := hpos hT
  omega

theorem non_degenerate_count_full_length_witness :
    (∀ j, 1 ≤ j → j ≤ ([0, 0, 0] : List ℚ).length → ¬ exceeds_threshold ([0, 0, 0] : List ℚ) j)
      ∧ non_degenerate_count ([0, 0, 0] : List ℚ) = ([0, 0, 0] : List ℚ).length :=
  have h : ∀ j, 1 ≤ j → j ≤ ([0, 0, 0] : List ℚ).length →
      ¬ exceeds_threshold ([0, 0, 0] : List ℚ) j := by
    intro j _ _
    have hz : ∀ x ∈ ([0, 0, 0] : List ℚ).take j, x = 0 := by
      intro x hx
      have := List.mem_of_mem_take hx
      simpa using this
    simp [exceeds_threshold, leading_sum, List.sum_eq_zero hz]
  ⟨h, (non_degenerate_count_full_length [0, 0, 0] h).1⟩

theorem calculate_shrink_factor_disabled_eq (cfg : shrink_factor_config F) (sqrt : F → F)
    (pow : Nat → F → F) (happly : cfg._apply_shrink_factor = false) (counter d : Nat)
    (preds : List (action_score F)) (prior : List F) :
    cfg.calculate_shrink_factor sqrt pow counter d preds prior
      = prior.take preds.length ++ List.replicate (preds.length - prior.length) 1 := by
  simp [shrink_factor_config.calculate_shrink_factor, happly, vector_resize]

theorem shrink_factor_calls_invariant (cfg : shrink_factor_config F) (sqrt : F → F)
    (pow : Nat → F → F) (happly : cfg._apply_shrink_factor = false)
    (calls : List (Nat × Nat × List (action_score F))) :
    ∀ prior : List F, (∀ x ∈ prior, x = 1) →
      (∀ x ∈ calls.foldl (fun sf call =>
          cfg.calculate_shrink_factor sqrt pow call.1 call.2.1 call.2.2 sf) prior, x = 1)
        ∧ ∀ last, calls.getLast? = some last →
            (calls.foldl (fun sf call =>
              cfg.calculate_shrink_factor sqrt pow call.1 call.2.1 call.2.2 sf) prior).length
              = last.2.2.length := by
  induction calls with
  | nil =>
    intro prior hprior
    exact ⟨by simpa using hprior, by simp⟩
  | cons call rest ih =>
    intro prior hprior
    have hone : ∀ x ∈ cfg.calculate_shrink_factor sqrt pow call.1 call.2.1 call.2.2 prior,
        x = 1 := by
      rw [calculate_shrink_factor_disabled_eq cfg sqrt pow happly]
      intro x hx
      rcases List.mem_append.mp hx with hx | hx
      · exact hprior x (List.mem_of_mem_take hx)
      · exact List.eq_of_mem_replicate hx
    obtain ⟨hall, hlast⟩ := ih _ hone
    simp only [List.foldl_cons]
    refine ⟨hall, ?_⟩
    intro last hl
    cases rest with
    | nil =>
      simp only [List.getLast?_singleton, Option.some.injEq] at hl
      subst hl
      simp only [List.foldl_nil]
      rw [calculate_shrink_factor_disabled_eq cfg sqrt pow happly]
      simp; omega
    | cons r rs =>
      apply hlast
      rwa [List.getLast?_cons_cons] at hl

/-- C19. With `apply_shrink_factor` disabled, `calculate_shrink_factor` only resizes the
vector: the result is the incoming vector cut to the action count `n`, or extended to length
`n` with 1.0, the entries already present staying as they are.  `update_example_prediction`
writes `shrink_factors` through this call only, and the constructor leaves the vector
empty; so, starting from the empty vector, after any sequence of calls with any action
counts every entry is 1.0 and the length is the action count of the latest call. -/
theorem shrink_factors_only_resized (cfg : shrink_factor_config F) (sqrt : F → F)
    (pow : Nat → F → F) (happly : cfg._apply_shrink_factor = false) :
    (∀ (counter d : Nat) (preds : List (action_score F)) (prior : List F),
        cfg.calculate_shrink_factor sqrt pow counter d preds prior
          = prior.take preds.length ++ List.replicate (preds.length - prior.length) 1)
      ∧ (∀ calls : List (Nat × Nat × List (action_score F)),
          (∀ x ∈ calls.foldl (fun sf call =>
              cfg.calculate_shrink_factor sqrt pow call.1 call.2.1 call.2.2 sf) [], x = 1)
            ∧ ∀ last, calls.getLast? = some last →
                (calls.foldl (fun sf call =>
                  cfg.calculate_shrink_factor sqrt pow call.1 call.2.1 call.2.2 sf) []).length
                  = last.2.2.length)
      ∧ (∀ (X : externals F) (self : cb_explore_adf_large_action_space F X)
          (examples : multi_ex F X.Ex),
          (self.update_example_prediction examples).1.shrink_factors =
            (if self._d < examples.a_s.length then
              self.shrink_fact_config.calculate_shrink_factor X.sqrt X.pow self._counter self._d
                examples.a_s self.shrink_factors
            else self.shrink_factors)) := by
  refine ⟨calculate_shrink_factor_disabled_eq cfg sqrt pow happly, ?_, ?_⟩
  · intro calls
    exact shrink_factor_calls_invariant cfg sqrt pow happly calls [] (by simp)
  · intro X self examples
    unfold cb_explore_adf_large_action_space.update_example_prediction
    by_cases h : self._d < examples.a_s.length
    · simp only [h, dite_true, if_true]
      by_cases hU : (self.after_randomized_SVD examples).U.rows = 0
      · simp only [hU, if_true]; rfl
      · simp only [hU, if_false]; rfl
    · simp only [h, dite_false, if_false]

theorem shrink_factors_only_resized_witness :
    (⟨1, 0, false⟩ : shrink_factor_config ℚ)._apply_shrink_factor = false
      ∧ (⟨1, 0, false⟩ : shrink_factor_config ℚ).calculate_shrink_factor
          (sample_externals 0 [] []).sqrt (sample_externals 0 [] []).pow 0 1
          unsorted_batch.a_s [2, 1]
        = ([2, 1] : List ℚ).take unsorted_batch.a_s.length
          ++ List.replicate (unsorted_batch.a_s.length - ([2, 1] : List ℚ).length) 1 :=
  ⟨rfl, (shrink_factors_only_resized (⟨1, 0, false⟩ : shrink_factor_config ℚ)
    (sample_externals 0 [] []).sqrt (sample_externals 0 [] []).pow rfl).1 0 1
    unsorted_batch.a_s [2, 1]⟩

/-! ## Random projection -/

theorem add_at_coeff (Z : MatrixXf F) (row col : Nat) (value : F) (i j : Nat) :
    (Z.add_at row col value).coeff i j =
      if i = row ∧ j = col then Z.coeff i j + value else Z.coeff i j := rfl

theorem generate_Z_inner_spec (B : MatrixXf F) (g : Nat → F) (seed row col : Nat) :
    ∀ (n : Nat) (Z : MatrixXf F),
      ((List.range n).foldl (fun Z inner_index =>
          Z.add_at row col (B.coeff row inner_index
            * g (((inner_index + col) % 2 ^ 64 + seed) % 2 ^ 64))) Z).rows = Z.rows
        ∧ ((List.range n).foldl (fun Z inner_index =>
          Z.add_at row col (B.coeff row inner_index
            * g (((inner_index + col) % 2 ^ 64 + seed) % 2 ^ 64))) Z).cols = Z.cols
        ∧ ∀ i j, ((List.range n).foldl (fun Z inner_index =>
            Z.add_at row col (B.coeff row inner_index
              * g (((inner_index + col) % 2 ^ 64 + seed) % 2 ^ 64))) Z).coeff i j =
            if i = row ∧ j = col then
              Z.coeff i j + Finset.sum (Finset.range n)
                (fun k => B.coeff row k * g ((k + col + seed) % 2 ^ 64))
            else Z.coeff i j := by
  intro n
  induction n with
  | zero => intro Z; simp
  | succ n ih =>
    intro Z
    obtain ⟨h1, h2, h3⟩ := ih Z
    rw [List.range_succ, List.foldl_append]
    simp only [List.foldl_cons, List.foldl_nil]
    refine ⟨h1, h2, ?_⟩
    intro i j
    rw [add_at_coeff, h3, Finset.sum_range_succ, Nat.mod_add_mod]
    by_cases hc : i = row ∧ j = col
    · simp only [hc, and_self, if_true, add_assoc]
    · simp only [hc, if_false]

theorem generate_Z_inner_coeff (B : MatrixXf F) (g : Nat → F) (d seed row col : Nat)
    (Z : MatrixXf F) :
    (generate_Z_inner B g d seed row col Z).rows = Z.rows
      ∧ (generate_Z_inner B g d seed row col Z).cols = Z.cols
      ∧ ∀ i j, (generate_Z_inner B g d seed row col Z).coeff i j =
          if i = row ∧ j = col then Z.coeff i j + spec_Z_entry B g d seed row col
          else Z.coeff i j :=
  generate_Z_inner_spec B g seed row col d Z

theorem generate_Z_col_spec (B : MatrixXf F) (g : Nat → F) (d seed row : Nat) :
    ∀ (m : Nat) (Z : MatrixXf F),
      ((List.range m).foldl (fun Z col => generate_Z_inner B g d seed row col Z) Z).rows = Z.rows
        ∧ ((List.range m).foldl (fun Z col => generate_Z_inner B g d seed row col Z) Z).cols
            = Z.cols
        ∧ ∀ i j,
            ((List.range m).foldl (fun Z col => generate_Z_inner B g d seed row col Z) Z).coeff i j
              = if i = row ∧ j < m then Z.coeff i j + spec_Z_entry B g d seed row j
                else Z.coeff i j := by
  intro m
  induction m with
  | zero => intro Z; simp
  | succ m ih =>
    intro Z
    obtain ⟨h1, h2, h3⟩ := ih Z
    rw [List.range_succ, List.foldl_append]
    simp only [List.foldl_cons, List.foldl_nil]
    obtain ⟨k1, k2, k3⟩ := generate_Z_inner_coeff B g d seed row m
      ((List.range m).foldl (fun Z col => generate_Z_inner B g d seed row col Z) Z)
    refine ⟨k1.trans h1, k2.trans h2, ?_⟩
    intro i j
    rw [k3 i j, h3]
    by_cases hi : i = row
    · rcases Nat.lt_trichotomy j m with hj | hj | hj
      · have e1 : ¬ j = m := by omega
        have e2 : j < m + 1 := by omega
        simp [hi, hj, e1, e2]
      · subst hj
        simp [hi]
      · have e1 : ¬ j = m := by omega
        have e2 : ¬ j < m + 1 := by omega
        have e3 : ¬ j < m := by omega
        simp [hi, e1, e2, e3]
    · simp [hi]

theorem generate_Z_row_spec (B : MatrixXf F) (g : Nat → F) (d seed : Nat) :
    ∀ (r : Nat) (Z : MatrixXf F),
      ((List.range r).foldl (fun Z row =>
          (List.range d).foldl (fun Z col => generate_Z_inner B g d seed row col Z) Z) Z).rows
          = Z.rows
        ∧ ((List.range r).foldl (fun Z row =>
          (List.range d).foldl (fun Z col => generate_Z_inner B g d seed row col Z) Z) Z).cols
          = Z.cols
        ∧ ∀ i j, ((List.range r).foldl (fun Z row =>
            (List.range d).foldl (fun Z col => generate_Z_inner B g d seed row col Z) Z) Z).coeff
              i j
            = if i < r ∧ j < d then Z.coeff i j + spec_Z_entry B g d seed i j
              else Z.coeff i j := by
  intro r
  induction r with
  | zero => intro Z; simp
  | succ r ih =>
    intro Z
    obtain ⟨h1, h2, h3⟩ := ih Z
    rw [List.range_succ, List.foldl_append]
    simp only [List.foldl_cons, List.foldl_nil]
    obtain ⟨k1, k2, k3⟩ := generate_Z_col_spec B g d seed r d
      ((List.range r).foldl (fun Z row =>
        (List.range d).foldl (fun Z col => generate_Z_inner B g d seed row col Z) Z) Z)
    refine ⟨k1.trans h1, k2.trans h2, ?_⟩
    intro i j
    rw [k3 i j, h3]
    by_cases hj : j < d
    · rcases Nat.lt_trichotomy i r with hi | hi | hi
      · have e1 : ¬ i = r := by omega
        have e2 : i < r + 1 := by omega
        simp [hi, hj, e1, e2]
      · subst hi
        simp [hj]
      · have e1 : ¬ i = r := by omega
        have e2 : ¬ i < r + 1 := by omega
        have e3 : ¬ i < r := by omega
        simp [hj, e1, e2, e3]
    · simp [hj]

/-- C15. Before the orthonormalisation, for every matrix `B` with at least `d` columns and
at most `num_actions` rows, `Z` has `num_actions` rows and `d` columns; for every row of `B`
and every column below `d`, `Z(row, col)` is the sum over `inner_index` from 0 to `d - 1`
of `B(row, inner_index) * g((inner_index + col + seed) mod 2^64)`, that is the entry of
`B * P` with `P(inner_index, col) = g(inner_index + col + seed)`; the rows of `Z` beyond
the rows of `B` are zero; and `generate_Z` returns the orthonormalisation of that `Z`. -/
theorem generate_Z_is_B_times_P {E : Type} (gram_schmidt : MatrixXf F → MatrixXf F)
    (examples : multi_ex F E) (B : MatrixXf F) (g : Nat → F) (d seed : Nat)
    (hcols : d ≤ B.cols) (hrows : B.rows ≤ examples.a_s.length) :
    (generate_Z_before_gram_schmidt examples B g d seed).rows = examples.a_s.length
      ∧ (generate_Z_before_gram_schmidt examples B g d seed).cols = d
      ∧ (∀ row col, row < B.rows → col < d →
          (generate_Z_before_gram_schmidt examples B g d seed).coeff row col =
            Finset.sum (Finset.range d) (fun inner_index =>
              B.coeff row inner_index * g ((inner_index + col + seed) % 2 ^ 64)))
      ∧ (∀ row col, row < B.rows → col < d →
          (generate_Z_before_gram_schmidt examples B g d seed).coeff row col =
            spec_Z_entry B g d seed row col)
      ∧ (∀ row col, B.rows ≤ row →
          (generate_Z_before_gram_schmidt examples B g d seed).coeff row col = 0)
      ∧ generate_Z gram_schmidt examples B g d seed =
          gram_schmidt (generate_Z_before_gram_schmidt examples B g d seed) := by
  obtain ⟨h1, h2, h3⟩ :=
    generate_Z_row_spec B g d seed B.rows ⟨examples.a_s.length, d, fun _ _ => 0⟩
  have hcoeff : ∀ i j, (generate_Z_before_gram_schmidt examples B g d seed).coeff i j =
      if i < B.rows ∧ j < d then 0 + spec_Z_entry B g d seed i j else 0 := h3
  refine ⟨h1, h2, ?_, ?_, ?_, rfl⟩
  · intro row col hr hc
    rw [hcoeff]
    simp [hr, hc, spec_Z_entry, spec_P]
  · intro row col hr hc
    rw [hcoeff]
    simp [hr, hc]
  · intro row col hr
    rw [hcoeff]
    have : ¬ row < B.rows := by omega
    simp [this]

theorem generate_Z_is_B_times_P_witness :
    2 ≤ sample_B.cols ∧ sample_B.rows ≤ unsorted_batch.a_s.length
      ∧ (generate_Z_before_gram_schmidt unsorted_batch sample_B (fun n => (n : ℚ)) 2 10).rows
          = unsorted_batch.a_s.length
      ∧ (generate_Z_before_gram_schmidt unsorted_batch sample_B (fun n => (n : ℚ)) 2 10).coeff 3 1
          = 0 :=
  ⟨by decide, by decide,
    (generate_Z_is_B_times_P id unsorted_batch sample_B (fun n => (n : ℚ)) 2 10 (by decide)
      (by decide)).1,
    (generate_Z_is_B_times_P id unsorted_batch sample_B (fun n => (n : ℚ)) 2 10 (by decide)
      (by decide)).2.2.2.2.1 3 1 (by decide)⟩

end orchestrator_claims

end cb_explore_adf
end VW
